import Mathlib

/-!
Verification development for the vybe-server authentication subsystem.

The definitions below are a shallow embedding of the TypeScript sources:

* `Sha256` embeds `hashToken` from `src/shared/utils/hash.ts`
  (`crypto.createHash('sha256').update(token).digest('hex')`), with the
  SHA-256 algorithm written out over `Nat` bytes and 32-bit words
  (all word arithmetic is taken modulo `2 ^ 32`).
* The auth state machine embeds `src/modules/auth/auth.service.ts`,
  `src/shared/middleware/auth.middleware.ts`,
  `src/shared/middleware/rate-limit.middleware.ts` and
  `src/shared/utils/jwt.ts`, with the Prisma tables and the Redis
  keyspace modelled as explicit association lists and all timestamps
  in milliseconds.
-/

namespace VybeServer

namespace Sha256

/-- Modulus for 32-bit word arithmetic. -/
def M32 : Nat := 4294967296

/-- Right rotation of a 32-bit word by `n` bits. -/
def rotr (n x : Nat) : Nat :=
  ((x >>> n) ||| ((x % (2 ^ n)) <<< (32 - n))) % M32

/-- Logical right shift. -/
def shr (n x : Nat) : Nat := x >>> n

def bigSigma0 (x : Nat) : Nat := (rotr 2 x) ^^^ (rotr 13 x) ^^^ (rotr 22 x)

def bigSigma1 (x : Nat) : Nat := (rotr 6 x) ^^^ (rotr 11 x) ^^^ (rotr 25 x)

def smallSigma0 (x : Nat) : Nat := (rotr 7 x) ^^^ (rotr 18 x) ^^^ (shr 3 x)

def smallSigma1 (x : Nat) : Nat := (rotr 17 x) ^^^ (rotr 19 x) ^^^ (shr 10 x)

def ch (x y z : Nat) : Nat := (x &&& y) ^^^ ((x ^^^ 4294967295) &&& z)

def maj (x y z : Nat) : Nat := (x &&& y) ^^^ (x &&& z) ^^^ (y &&& z)

/-- The 64 SHA-256 round constants (FIPS 180-4, written in decimal). -/
def K : List Nat :=
  [1116352408, 1899447441, 3049323471, 3921009573, 961987163,
   1508970993, 2453635748, 2870763221, 3624381080, 310598401,
   607225278, 1426881987, 1925078388, 2162078206, 2614888103,
   3248222580, 3835390401, 4022224774, 264347078, 604807628,
   770255983, 1249150122, 1555081692, 1996064986, 2554220882,
   2821834349, 2952996808, 3210313671, 3336571891, 3584528711,
   113926993, 338241895, 666307205, 773529912, 1294757372,
   1396182291, 1695183700, 1986661051, 2177026350, 2456956037,
   2730485921, 2820302411, 3259730800, 3345764771, 3516065817,
   3600352804, 4094571909, 275423344, 430227734, 506948616,
   659060556, 883997877, 958139571, 1322822218, 1537002063,
   1747873779, 1955562222, 2024104815, 2227730452, 2361852424,
   2428436474, 2756734187, 3204031479, 3329325298]

/-- The 8-word SHA-256 state. -/
structure Digest where
  h0 : Nat
  h1 : Nat
  h2 : Nat
  h3 : Nat
  h4 : Nat
  h5 : Nat
  h6 : Nat
  h7 : Nat
deriving DecidableEq

/-- SHA-256 initial hash value (FIPS 180-4, written in decimal). -/
def initH : Digest :=
  ⟨1779033703, 3144134277, 1013904242, 2773480762,
   1359893119, 2600822924, 528734635, 1541459225⟩

/-- Merkle-Damgard padding: append 0x80, zero bytes to 56 mod 64, then the
64-bit big-endian message bit length. -/
def padMsg (msg : List Nat) : List Nat :=
  let len := msg.length
  let z := (64 + 55 - len % 64) % 64
  let bitLen := len * 8
  msg ++ 0x80 :: List.replicate z 0 ++
    [(bitLen >>> 56) % 256, (bitLen >>> 48) % 256, (bitLen >>> 40) % 256, (bitLen >>> 32) % 256,
     (bitLen >>> 24) % 256, (bitLen >>> 16) % 256, (bitLen >>> 8) % 256, bitLen % 256]

/-- Big-endian 32-bit word `j` of a 64-byte block. -/
def wordAt (block : List Nat) (j : Nat) : Nat :=
  (block.getD (4 * j) 0) * 16777216 + (block.getD (4 * j + 1) 0) * 65536 +
    (block.getD (4 * j + 2) 0) * 256 + block.getD (4 * j + 3) 0

/-- The 64-entry message schedule of one block. -/
def msgSchedule (block : List Nat) : List Nat :=
  (List.range 64).foldl
    (fun w t =>
      if t < 16 then w ++ [wordAt block t]
      else
        w ++ [(smallSigma1 (w.getD (t - 2) 0) + w.getD (t - 7) 0 +
               smallSigma0 (w.getD (t - 15) 0) + w.getD (t - 16) 0) % M32])
    []

/-- One compression round, consuming a `(round constant, schedule word)` pair. -/
def roundStep (st : Digest) (p : Nat × Nat) : Digest :=
  let t1 := (st.h7 + bigSigma1 st.h4 + ch st.h4 st.h5 st.h6 + p.1 + p.2) % M32
  let t2 := (bigSigma0 st.h0 + maj st.h0 st.h1 st.h2) % M32
  ⟨(t1 + t2) % M32, st.h0, st.h1, st.h2, (st.h3 + t1) % M32, st.h4, st.h5, st.h6⟩

/-- Compress one 64-byte block into the running digest. -/
def compressBlock (d : Digest) (block : List Nat) : Digest :=
  let w := msgSchedule block
  let f := (K.zip w).foldl roundStep d
  ⟨(d.h0 + f.h0) % M32, (d.h1 + f.h1) % M32, (d.h2 + f.h2) % M32, (d.h3 + f.h3) % M32,
   (d.h4 + f.h4) % M32, (d.h5 + f.h5) % M32, (d.h6 + f.h6) % M32, (d.h7 + f.h7) % M32⟩

/-- SHA-256 of a byte sequence. -/
def sha256 (msg : List Nat) : Digest :=
  let padded := padMsg msg
  (List.range (padded.length / 64)).foldl
    (fun d i => compressBlock d ((padded.drop (64 * i)).take 64)) initH

/-- Lowercase hex digit for a nibble. -/
def nibbleChar (n : Nat) : Char :=
  if n < 10 then Char.ofNat (48 + n) else Char.ofNat (87 + n)

/-- Eight lowercase hex characters of a 32-bit word, most significant first. -/
def wordHexChars (w : Nat) : List Char :=
  [nibbleChar ((w >>> 28) % 16), nibbleChar ((w >>> 24) % 16), nibbleChar ((w >>> 20) % 16),
   nibbleChar ((w >>> 16) % 16), nibbleChar ((w >>> 12) % 16), nibbleChar ((w >>> 8) % 16),
   nibbleChar ((w >>> 4) % 16), nibbleChar (w % 16)]

/-- `digest('hex')`: the 64-character lowercase hex rendering of a digest. -/
def digestHex (d : Digest) : String :=
  String.mk (wordHexChars d.h0 ++ wordHexChars d.h1 ++ wordHexChars d.h2 ++ wordHexChars d.h3 ++
             wordHexChars d.h4 ++ wordHexChars d.h5 ++ wordHexChars d.h6 ++ wordHexChars d.h7)

/-- `hashToken` from `src/shared/utils/hash.ts`: SHA-256 of the UTF-8 bytes
of the token, rendered as lowercase hex. -/
def hashToken (token : String) : String :=
  digestHex (sha256 (token.toUTF8.toList.map UInt8.toNat))

theorem wordHexChars_length (w : Nat) : (wordHexChars w).length = 8 := rfl

theorem digestHex_length (d : Digest) : (digestHex d).length = 64 := by
  simp [digestHex, String.length, wordHexChars]

theorem hashToken_length (t : String) : (hashToken t).length = 64 :=
  digestHex_length _

theorem hashToken_ne_empty (t : String) : hashToken t ≠ "" := by
  intro h
  have hlen := hashToken_length t
  rw [h] at hlen
  simp [String.length] at hlen

end Sha256

/-! ## JWT model (`src/shared/utils/jwt.ts` over the `jsonwebtoken` library)

`jwt.sign(payload, secret, { expiresIn })` with the HS256 default is a
deterministic function of the claims set `{userId, sessionId, iat, exp}` and
the secret; `iat` is the issue time in whole seconds and
`exp = iat + expiresIn` in seconds.  A signed token is therefore modelled as
the tuple of its claims and the signing secret; two tokens are equal exactly
when those coincide.  `jwt.verify` succeeds when the secret matches and the
clock (in whole seconds) is still before `exp`. -/

/-- The claims the service embeds in every token. -/
structure JwtPayload where
  userId : String
  sessionId : String
deriving DecidableEq

/-- A signed JWT: claims, issue second, expiry second and the signing secret. -/
structure SignedToken where
  payload : JwtPayload
  iat : Nat
  exp : Nat
  secret : String
deriving DecidableEq

/-- `jwt.sign` at clock `nowMs` (milliseconds): `iat` is the whole second,
`exp` adds the configured lifetime in whole seconds. -/
def jwtSign (p : JwtPayload) (secret : String) (expiresInMs : Nat) (nowMs : Nat) : SignedToken :=
  ⟨p, nowMs / 1000, nowMs / 1000 + expiresInMs / 1000, secret⟩

/-- `jwt.verify`: the signature checks out iff the secrets coincide, and the
token is expired once the clock second reaches `exp`. -/
def jwtVerify (t : SignedToken) (secret : String) (nowMs : Nat) : Option JwtPayload :=
  if t.secret = secret ∧ nowMs / 1000 < t.exp then some t.payload else none

/-- Environment-derived configuration: the two disjoint JWT secrets and the
two token lifetimes, already parsed to milliseconds by `parseDuration`. -/
structure Config where
  accessSecret : String
  refreshSecret : String
  accessExpMs : Nat
  refreshExpMs : Nat
deriving DecidableEq

/-- `generateAccessToken` from `src/shared/utils/jwt.ts`. -/
def generateAccessToken (cfg : Config) (nowMs : Nat) (p : JwtPayload) : SignedToken :=
  jwtSign p cfg.accessSecret cfg.accessExpMs nowMs

/-- `generateRefreshToken` from `src/shared/utils/jwt.ts`. -/
def generateRefreshToken (cfg : Config) (nowMs : Nat) (p : JwtPayload) : SignedToken :=
  jwtSign p cfg.refreshSecret cfg.refreshExpMs nowMs

/-- `verifyAccessToken` from `src/shared/utils/jwt.ts`. -/
def verifyAccessToken (cfg : Config) (nowMs : Nat) (t : SignedToken) : Option JwtPayload :=
  jwtVerify t cfg.accessSecret nowMs

/-- `verifyRefreshToken` from `src/shared/utils/jwt.ts`. -/
def verifyRefreshToken (cfg : Config) (nowMs : Nat) (t : SignedToken) : Option JwtPayload :=
  jwtVerify t cfg.refreshSecret nowMs

/-! The column `userSession.refreshTokenHash` holds either the empty-string
placeholder written at creation or `hashToken(tok)` for a refresh token
`tok`.  `Sha256.hashToken_ne_empty` shows the placeholder is outside the
range of `hashToken`, so the column is modelled as `Option SignedToken`:
`none` is the placeholder and `some tok` is the digest of `tok`, equality of
digests standing for equality of the hashed tokens (SHA-256 treated as
collision-free, the standard symbolic model). -/

/-- The stored refresh-token digest: `none` models the `''` placeholder. -/
def TokenHash : Type := Option SignedToken

instance : DecidableEq TokenHash := by
  unfold TokenHash
  infer_instance

/-- `hashToken` applied to a modelled token (see `Sha256.hashToken`). -/
def hashTokenM (t : SignedToken) : TokenHash := some t

/-! ## Redis model

The service touches three disjoint key families: `session:{id}` and
`verification:{phone}` are plain string values written with `SET key value
EX ttl`, and `verification:attempts:{phone}` are counters driven by
`INCR`/`EXPIRE`.  Each family is an association list; every read checks the
stored absolute expiry against the clock, mirroring Redis TTL expiry. -/

/-- A Redis string value with its absolute expiry (ms). -/
structure RedisEntry where
  value : String
  expireAt : Nat
deriving DecidableEq

/-- A Redis counter; `expireAt = none` means no TTL is set (key persists). -/
structure RedisCtr where
  count : Nat
  expireAt : Option Nat
deriving DecidableEq

/-- The fast store: string keys and counter keys. -/
structure RedisState where
  strings : List (String × RedisEntry)
  counters : List (String × RedisCtr)
deriving DecidableEq

/-- `GET key`: the value if the key exists and its TTL has not elapsed. -/
def redisGet (r : RedisState) (nowMs : Nat) (k : String) : Option String :=
  match r.strings.find? (fun p => p.1 = k) with
  | some (_, e) => if nowMs < e.expireAt then some e.value else none
  | none => none

/-- `SET key value EX ttlSec` (replaces any previous entry). -/
def redisSet (r : RedisState) (nowMs : Nat) (k v : String) (ttlSec : Nat) : RedisState :=
  { r with strings := (k, ⟨v, nowMs + ttlSec * 1000⟩) :: r.strings.filter (fun p => p.1 ≠ k) }

/-- `DEL key` on a string key. -/
def redisDel (r : RedisState) (k : String) : RedisState :=
  { r with strings := r.strings.filter (fun p => p.1 ≠ k) }

/-- `EXISTS key` on a string key, respecting TTL expiry. -/
def redisExists (r : RedisState) (nowMs : Nat) (k : String) : Bool :=
  (redisGet r nowMs k).isSome

/-- Whether a counter entry is still live at `nowMs`. -/
def ctrLive (nowMs : Nat) (c : RedisCtr) : Bool :=
  match c.expireAt with
  | none => true
  | some e => nowMs < e

/-- `INCR key` on a counter key: 1 on a fresh or expired key (with no TTL),
otherwise the incremented count with the TTL untouched. -/
def redisIncr (r : RedisState) (nowMs : Nat) (k : String) : Nat × RedisState :=
  match r.counters.find? (fun p => p.1 = k) with
  | some (_, c) =>
    if ctrLive nowMs c then
      (c.count + 1,
       { r with counters := (k, ⟨c.count + 1, c.expireAt⟩) :: r.counters.filter (fun p => p.1 ≠ k) })
    else
      (1, { r with counters := (k, ⟨1, none⟩) :: r.counters.filter (fun p => p.1 ≠ k) })
  | none => (1, { r with counters := (k, ⟨1, none⟩) :: r.counters.filter (fun p => p.1 ≠ k) })

/-- `EXPIRE key sec` on a counter key. -/
def redisExpireCtr (r : RedisState) (nowMs : Nat) (k : String) (sec : Nat) : RedisState :=
  match r.counters.find? (fun p => p.1 = k) with
  | some (_, c) =>
    { r with counters := (k, ⟨c.count, some (nowMs + sec * 1000)⟩) :: r.counters.filter (fun p => p.1 ≠ k) }
  | none => r

/-! ## Error taxonomy

The service signals errors as `Error` objects with an attached `statusCode`;
the constructors below are the distinct `(message, statusCode)` pairs it
raises, plus the two Prisma failure modes that can escape (unique-constraint
violation on create, record-not-found on update). -/

inductive AuthError where
  /-- 429 `Too many verification attempts` from `sendVerificationCode`. -/
  | rateLimited
  /-- 400 `Verification code expired or not found` from `verifyPhoneCode`. -/
  | codeExpiredOrNotFound
  /-- 400 `Invalid verification code` from `verifyPhoneCode`. -/
  | invalidCode
  /-- 400 `Invalid Google ID token`. -/
  | invalidGoogleToken
  /-- 400 `Invalid Apple identity token`. -/
  | invalidAppleToken
  /-- 401 `Invalid refresh token` from `refreshTokens`. -/
  | invalidRefreshToken
  /-- 401 `Invalid refresh token - all sessions invalidated` (reuse). -/
  | sessionCompromised
  /-- 401 from the `authenticate` middleware. -/
  | unauthorized
  /-- Prisma P2002 unique-constraint violation escaping as a generic failure. -/
  | uniqueConstraintViolation
  /-- Prisma P2025 record-not-found escaping as a generic failure. -/
  | recordNotFound
deriving DecidableEq

instance {ε α : Type} [DecidableEq ε] [DecidableEq α] : DecidableEq (Except ε α) := fun a b =>
  match a, b with
  | .error e, .error f =>
    if h : e = f then .isTrue (by rw [h]) else .isFalse (by intro hc; cases hc; exact h rfl)
  | .ok x, .ok y =>
    if h : x = y then .isTrue (by rw [h]) else .isFalse (by intro hc; cases hc; exact h rfl)
  | .error _, .ok _ => .isFalse (by intro hc; cases hc)
  | .ok _, .error _ => .isFalse (by intro hc; cases hc)

/-- The specification class `InvalidCredential`: wrong code or malformed
federated token (all surfaced with status 400). -/
def AuthError.isInvalidCredential : AuthError → Bool
  | .codeExpiredOrNotFound => true
  | .invalidCode => true
  | .invalidGoogleToken => true
  | .invalidAppleToken => true
  | _ => false

/-- The HTTP status attached to each raised error. -/
def AuthError.statusCode : AuthError → Nat
  | .rateLimited => 429
  | .codeExpiredOrNotFound => 400
  | .invalidCode => 400
  | .invalidGoogleToken => 400
  | .invalidAppleToken => 400
  | .invalidRefreshToken => 401
  | .sessionCompromised => 401
  | .unauthorized => 401
  | .uniqueConstraintViolation => 500
  | .recordNotFound => 500

/-! ## Durable store model (Prisma `user` and `userSession` tables) -/

/-- A row of the `user` table; the fields the auth service touches. -/
structure UserRec where
  id : String
  phone : Option String := none
  email : Option String := none
  googleId : Option String := none
  appleId : Option String := none
  displayName : Option String := none
  username : Option String := none
  avatarUrl : Option String := none
  verifiedBadges : List String := []
  lastActiveAt : Option Nat := none
deriving DecidableEq

/-- A row of the `userSession` table. -/
structure SessionRec where
  id : String
  userId : String
  refreshTokenHash : TokenHash
  deviceType : Option String
  ipAddress : String
  expiresAt : Nat
  createdAt : Nat
deriving DecidableEq

/-- The whole mutable state the service acts on: the two Prisma tables (in
insertion order), the id allocator behind `cuid()`, and the fast store. -/
structure St where
  users : List UserRec
  sessions : List SessionRec
  nextId : Nat
  redis : RedisState
deriving DecidableEq

/-- The id the durable store hands out for the next created row. -/
def freshId (st : St) : String := "c" ++ toString st.nextId

/-- Clash of two optional unique-column values (`null` never clashes). -/
def optClash (a b : Option String) : Bool :=
  match a, b with
  | some x, some y => x = y
  | _, _ => false

/-- Whether inserting `u` would violate one of the unique constraints on
`phone`, `email`, `googleId`, `appleId` or `username`. -/
def userClash (users : List UserRec) (u : UserRec) : Bool :=
  users.any (fun v =>
    optClash u.phone v.phone || optClash u.email v.email ||
    optClash u.googleId v.googleId || optClash u.appleId v.appleId ||
    optClash u.username v.username)

/-- `prisma.user.create`: enforces the unique constraints, allocates an id. -/
def userCreate (st : St) (mk : String → UserRec) : Except AuthError (UserRec × St) :=
  let u := mk (freshId st)
  if userClash st.users u then
    .error .uniqueConstraintViolation
  else
    .ok (u, { st with users := st.users ++ [u], nextId := st.nextId + 1 })

/-- `prisma.user.update where id`: applies `f` to the matching row. -/
def userUpdate (st : St) (uid : String) (f : UserRec → UserRec) : Except AuthError (UserRec × St) :=
  match st.users.find? (fun u => u.id = uid) with
  | none => .error .recordNotFound
  | some u =>
    .ok (f u, { st with users := st.users.map (fun v => if v.id = uid then f v else v) })

/-- `prisma.userSession.update where id`: applies `f` to the matching rows. -/
def sessionUpdate (st : St) (sid : String) (f : SessionRec → SessionRec) : St :=
  { st with sessions := st.sessions.map (fun s => if s.id = sid then f s else s) }

/-- The sessions of one account, in table order
(`findMany where userId`). -/
def sessionsOfUser (st : St) (uid : String) : List SessionRec :=
  st.sessions.filter (fun s => s.userId = uid)

/-- The ordering `orderBy: { createdAt: 'desc' }`. -/
def createdDesc (s t : SessionRec) : Prop := t.createdAt ≤ s.createdAt

instance : DecidableRel createdDesc := fun s t => Nat.decLe t.createdAt s.createdAt

instance : IsTotal SessionRec createdDesc := ⟨fun s t => Nat.le_total t.createdAt s.createdAt⟩

instance : IsTrans SessionRec createdDesc := ⟨fun _ _ _ h1 h2 => Nat.le_trans h2 h1⟩

/-- `findMany orderBy createdAt desc` (a stable sort of the table order). -/
def sortByCreatedDesc (l : List SessionRec) : List SessionRec :=
  l.insertionSort createdDesc

/-! ## The auth service (`src/modules/auth/auth.service.ts`)

Every operation takes the clock `nowMs` (the value `Date.now()` reads during
the call) and the state, and returns the result together with the state after
all its side effects — also on the error paths, which in the source mutate
the stores before throwing.  The randomly generated verification code is
passed in as an argument to keep the embedding deterministic. -/

/-- The `AuthTokens` result shape. -/
structure AuthTokens where
  accessToken : SignedToken
  refreshToken : SignedToken
  expiresIn : Nat
deriving DecidableEq

/-- The user summary embedded in an `AuthResponse`. -/
structure UserSummary where
  id : String
  phone : Option String
  email : Option String
  displayName : Option String
  username : Option String
  avatarUrl : Option String
  isNewUser : Bool
deriving DecidableEq

/-- The `AuthResponse` result shape. -/
structure AuthResponse where
  user : UserSummary
  tokens : AuthTokens
deriving DecidableEq

def toSummary (u : UserRec) (isNewUser : Bool) : UserSummary :=
  ⟨u.id, u.phone, u.email, u.displayName, u.username, u.avatarUrl, isNewUser⟩

/-- The Redis key of the session-validity cache entry. -/
def sessionCacheKey (sid : String) : String := "session:" ++ sid

/-- `AuthService.createSession`: create the row with the `''` placeholder
hash, issue both tokens, write the real hash, cache the session, touch
`lastActiveAt`, then evict everything beyond the 5 newest sessions from both
stores. -/
def createSession (cfg : Config) (nowMs : Nat) (userId : String) (deviceType : Option String)
    (ipAddress : String) (st : St) : Except AuthError AuthTokens × St :=
  let refreshExpMs := cfg.refreshExpMs
  let sid := freshId st
  let sess : SessionRec :=
    ⟨sid, userId, none, deviceType, ipAddress, nowMs + refreshExpMs, nowMs⟩
  let st1 : St := { st with sessions := st.sessions ++ [sess], nextId := st.nextId + 1 }
  let accessToken := generateAccessToken cfg nowMs ⟨userId, sid⟩
  let refreshToken := generateRefreshToken cfg nowMs ⟨userId, sid⟩
  let tokenHash := hashTokenM refreshToken
  let st2 := sessionUpdate st1 sid (fun s => { s with refreshTokenHash := tokenHash })
  let ttl := refreshExpMs / 1000
  let st3 : St := { st2 with redis := redisSet st2.redis nowMs (sessionCacheKey sid) userId ttl }
  match userUpdate st3 userId (fun u => { u with lastActiveAt := some nowMs }) with
  | .error e => (.error e, st3)
  | .ok (_, st4) =>
    let activeSessions := sortByCreatedDesc (sessionsOfUser st4 userId)
    if activeSessions.length > 5 then
      let sessionsToDelete := activeSessions.drop 5
      let delIds := sessionsToDelete.map (fun s => s.id)
      let st5 : St := { st4 with sessions := st4.sessions.filter (fun s => ¬ delIds.contains s.id) }
      let st6 : St :=
        { st5 with redis := sessionsToDelete.foldl (fun r s => redisDel r (sessionCacheKey s.id)) st5.redis }
      (.ok ⟨accessToken, refreshToken, 900⟩, st6)
    else
      (.ok ⟨accessToken, refreshToken, 900⟩, st4)

/-- `AuthService.sendVerificationCode`: store the fresh code under a 5-minute
TTL, then bump the hourly attempt counter and fail with 429 past 5 sends.
`code` is the value `generateVerificationCode()` returned. -/
def sendVerificationCode (nowMs : Nat) (phone : String) (code : String) (st : St) :
    Except AuthError Bool × St :=
  let key := "verification:" ++ phone
  let r1 := redisSet st.redis nowMs key code 300
  let attemptsKey := "verification:attempts:" ++ phone
  let attempts := (redisIncr r1 nowMs attemptsKey).1
  let r2 := (redisIncr r1 nowMs attemptsKey).2
  let r3 := if attempts = 1 then redisExpireCtr r2 nowMs attemptsKey 3600 else r2
  let st1 : St := { st with redis := r3 }
  if attempts > 5 then (.error .rateLimited, st1) else (.ok true, st1)

/-- The shared tail of every credential path: create the session and bundle
the `AuthResponse`. -/
def finishAuth (cfg : Config) (nowMs : Nat) (user : UserRec) (isNewUser : Bool)
    (deviceType : Option String) (ipAddress : String) (st : St) :
    Except AuthError AuthResponse × St :=
  match createSession cfg nowMs user.id deviceType ipAddress st with
  | (.error e, st1) => (.error e, st1)
  | (.ok tokens, st1) => (.ok ⟨toSummary user isNewUser, tokens⟩, st1)

/-- Input of `verifyPhoneCode`. -/
structure VerifyCodeInput where
  phone : String
  code : String
  deviceType : Option String
deriving DecidableEq

/-- `AuthService.verifyPhoneCode`: check the stored challenge, delete it on
success, find or create the account, add the `PHONE` badge, open a session. -/
def verifyPhoneCode (cfg : Config) (nowMs : Nat) (input : VerifyCodeInput) (ipAddress : String)
    (st : St) : Except AuthError AuthResponse × St :=
  let key := "verification:" ++ input.phone
  match redisGet st.redis nowMs key with
  | none => (.error .codeExpiredOrNotFound, st)
  | some storedCode =>
    if storedCode ≠ input.code then (.error .invalidCode, st)
    else
      let st1 : St := { st with redis := redisDel st.redis key }
      match st1.users.find? (fun u => u.phone = some input.phone) with
      | none =>
        match userCreate st1 (fun uid => { id := uid, phone := some input.phone, verifiedBadges := ["PHONE"] }) with
        | .error e => (.error e, st1)
        | .ok (user, st2) => finishAuth cfg nowMs user true input.deviceType ipAddress st2
      | some user0 =>
        if user0.verifiedBadges.contains "PHONE" then
          finishAuth cfg nowMs user0 false input.deviceType ipAddress st1
        else
          match userUpdate st1 user0.id
              (fun u => { u with verifiedBadges := u.verifiedBadges ++ ["PHONE"] }) with
          | .error e => (.error e, st1)
          | .ok (user, st2) => finishAuth cfg nowMs user false input.deviceType ipAddress st2

/-- The outcome of splitting a federated identity token on `.` and
base64/JSON-decoding its middle segment: either it is structurally
malformed, or it yields the claims the service reads. -/
inductive IdTokenPayload where
  | malformed
  | decoded (sub : String) (email : Option String) (name : Option String) (picture : Option String)
deriving DecidableEq

/-- Input of `authenticateWithGoogle`. -/
structure GoogleAuthInput where
  idToken : IdTokenPayload
  deviceType : Option String

/-- `AuthService.authenticateWithGoogle`: look up by Google subject id; when
absent, link by email into an existing account if one matches, otherwise
create the account; in either case `isNewUser` keeps the value computed from
the subject-id lookup. -/
def authenticateWithGoogle (cfg : Config) (nowMs : Nat) (input : GoogleAuthInput)
    (ipAddress : String) (st : St) : Except AuthError AuthResponse × St :=
  match input.idToken with
  | .malformed => (.error .invalidGoogleToken, st)
  | .decoded sub email name picture =>
    match st.users.find? (fun u => u.googleId = some sub) with
    | some user => finishAuth cfg nowMs user false input.deviceType ipAddress st
    | none =>
      let linked : Option (UserRec × St) :=
        match email with
        | some e =>
          match st.users.find? (fun u => u.email = some e) with
          | some existingUser =>
            match userUpdate st existingUser.id (fun u =>
                { u with googleId := some sub,
                         verifiedBadges := if existingUser.verifiedBadges.contains "GOOGLE"
                           then existingUser.verifiedBadges
                           else existingUser.verifiedBadges ++ ["GOOGLE"] }) with
            | .ok pair => some pair
            | .error _ => none
          | none => none
        | none => none
      match linked with
      | some (user, st2) => finishAuth cfg nowMs user true input.deviceType ipAddress st2
      | none =>
        match userCreate st (fun uid =>
            { id := uid, googleId := some sub, email := email, displayName := name,
              avatarUrl := picture, verifiedBadges := ["GOOGLE"] }) with
        | .error e => (.error e, st)
        | .ok (user, st2) => finishAuth cfg nowMs user true input.deviceType ipAddress st2

/-- The optional `fullName` Apple sends on first sign-in. -/
structure AppleFullName where
  givenName : Option String
  familyName : Option String
deriving DecidableEq

/-- Input of `authenticateWithApple`. -/
structure AppleAuthInput where
  identityToken : IdTokenPayload
  fullName : Option AppleFullName
  deviceType : Option String

/-- `[givenName, familyName].filter(Boolean).join(' ') || null`. -/
def appleDisplayName (fullName : Option AppleFullName) : Option String :=
  match fullName with
  | none => none
  | some fn =>
    let parts := ([fn.givenName, fn.familyName].filterMap id).filter (fun s => s ≠ "")
    let joined := String.intercalate " " parts
    if joined = "" then none else some joined

/-- `AuthService.authenticateWithApple`: look up by Apple subject id; when
absent, create the account directly — the Apple path performs no email
linking. -/
def authenticateWithApple (cfg : Config) (nowMs : Nat) (input : AppleAuthInput)
    (ipAddress : String) (st : St) : Except AuthError AuthResponse × St :=
  match input.identityToken with
  | .malformed => (.error .invalidAppleToken, st)
  | .decoded sub email _ _ =>
    match st.users.find? (fun u => u.appleId = some sub) with
    | some user => finishAuth cfg nowMs user false input.deviceType ipAddress st
    | none =>
      match userCreate st (fun uid =>
          { id := uid, appleId := some sub, email := email,
            displayName := appleDisplayName input.fullName, verifiedBadges := ["APPLE"] }) with
      | .error e => (.error e, st)
      | .ok (user, st2) => finishAuth cfg nowMs user true input.deviceType ipAddress st2

/-- `AuthService.invalidateUserSessions`: pipeline-delete the cache entries
of the sessions the durable store currently holds for the account. -/
def invalidateUserSessions (st : St) (userId : String) : St :=
  let ids := (st.sessions.filter (fun s => s.userId = userId)).map (fun s => s.id)
  { st with redis := ids.foldl (fun r sid => redisDel r (sessionCacheKey sid)) st.redis }

/-- `AuthService.refreshTokens`: verify the presented refresh token, look up
the session by id, stored hash and unexpired `expiresAt`; on a miss treat it
as reuse (delete the durable sessions of the account, then run
`invalidateUserSessions`, then fail); on a hit rotate hash, expiry and IP and
refresh the cache entry. -/
def refreshTokens (cfg : Config) (nowMs : Nat) (refreshToken : SignedToken) (ipAddress : String)
    (st : St) : Except AuthError AuthTokens × St :=
  match verifyRefreshToken cfg nowMs refreshToken with
  | none => (.error .invalidRefreshToken, st)
  | some payload =>
    let tokenHash := hashTokenM refreshToken
    match st.sessions.find? (fun s =>
        s.id = payload.sessionId ∧ s.refreshTokenHash = tokenHash ∧ nowMs < s.expiresAt) with
    | none =>
      let st1 : St := { st with sessions := st.sessions.filter (fun s => s.userId ≠ payload.userId) }
      let st2 := invalidateUserSessions st1 payload.userId
      (.error .sessionCompromised, st2)
    | some session =>
      let newAccessToken := generateAccessToken cfg nowMs ⟨session.userId, session.id⟩
      let newRefreshToken := generateRefreshToken cfg nowMs ⟨session.userId, session.id⟩
      let newTokenHash := hashTokenM newRefreshToken
      let refreshExpMs := cfg.refreshExpMs
      let st1 := sessionUpdate st session.id (fun s =>
        { s with refreshTokenHash := newTokenHash, ipAddress := ipAddress,
                 expiresAt := nowMs + refreshExpMs })
      let ttl := refreshExpMs / 1000
      let st2 : St := { st1 with redis := redisSet st1.redis nowMs (sessionCacheKey session.id) session.userId ttl }
      (.ok ⟨newAccessToken, newRefreshToken, 900⟩, st2)

/-- `AuthService.logout`: idempotently delete the durable row and the cache
entry. -/
def logout (st : St) (sessionId : String) : St :=
  let st1 : St := { st with sessions := st.sessions.filter (fun s => s.id ≠ sessionId) }
  { st1 with redis := redisDel st1.redis (sessionCacheKey sessionId) }

/-- The `authenticate` middleware (`src/shared/middleware/auth.middleware.ts`),
after the `Bearer` header has been stripped: verify the access token, accept
on a live cache entry, otherwise consult the durable row and re-cache it when
a positive whole-second TTL remains. -/
def authenticate (cfg : Config) (nowMs : Nat) (token : SignedToken) (st : St) :
    Except AuthError JwtPayload × St :=
  match verifyAccessToken cfg nowMs token with
  | none => (.error .unauthorized, st)
  | some payload =>
    let sessionKey := sessionCacheKey payload.sessionId
    if redisExists st.redis nowMs sessionKey then (.ok payload, st)
    else
      match st.sessions.find? (fun s => s.id = payload.sessionId) with
      | none => (.error .unauthorized, st)
      | some session =>
        if session.expiresAt < nowMs then (.error .unauthorized, st)
        else
          let ttl := (session.expiresAt - nowMs) / 1000
          if ttl > 0 then
            (.ok payload, { st with redis := redisSet st.redis nowMs sessionKey session.userId ttl })
          else (.ok payload, st)

/-! ## Rate limiter (`src/shared/middleware/rate-limit.middleware.ts`)

One key of `createRateLimiter` is a Redis sorted set whose member scores are
the `Date.now()` values of past attempts.  The handler pipeline removes the
entries at or below `now - windowSeconds * 1000`, counts the survivors, adds
the current attempt, and rejects with 429 when the count reached `max`. -/

/-- The sorted set behind one rate-limiter key: the recorded attempt times. -/
structure RlState where
  entries : List Nat
deriving DecidableEq

/-- Whether a recorded attempt time survives
`zremrangebyscore key 0 (now - windowSeconds * 1000)` (the score comparison
is over the reals in Redis, hence over `Int` here). -/
def inWindow (windowSeconds nowMs : Nat) (t : Nat) : Bool :=
  decide ((t : Int) > (nowMs : Int) - (windowSeconds : Int) * 1000)

/-- The admission handler returned by `createRateLimiter`; the first
component is `true` when the request is rejected with 429. -/
def rateLimitHandler (maxReq windowSeconds : Nat) (nowMs : Nat) (st : RlState) : Bool × RlState :=
  let kept := st.entries.filter (inWindow windowSeconds nowMs)
  let currentCount := kept.length
  let st1 : RlState := ⟨kept ++ [nowMs]⟩
  (decide (currentCount ≥ maxReq), st1)

/-- Repeated invocation of the handler on one key, starting from the empty
sorted set. -/
def rlRun (maxReq windowSeconds : Nat) (times : List Nat) : RlState :=
  times.foldl (fun st t => (rateLimitHandler maxReq windowSeconds t st).2) ⟨[]⟩

/-- State of the fixed-window reference counter. -/
structure FixedWindowState where
  windowStart : Option Nat
  count : Nat
deriving DecidableEq

/-- Modelled from the spec: `RateGuard` as "a counter scoped to key ... that
resets after windowSeconds of inactivity from the first attempt in the window
(fixed-window semantics, not sliding)" — one counter per key starting at the
first attempt, rejecting once it reaches `max`, resetting only
`windowSeconds` after the first attempt of the window. -/
def fixedWindowHandler (maxReq windowSeconds : Nat) (nowMs : Nat) (st : FixedWindowState) :
    Bool × FixedWindowState :=
  match st.windowStart with
  | some start =>
    if nowMs < start + windowSeconds * 1000 then
      (decide (st.count ≥ maxReq), ⟨some start, st.count + 1⟩)
    else
      (decide (0 ≥ maxReq), ⟨some nowMs, 1⟩)
  | none => (decide (0 ≥ maxReq), ⟨some nowMs, 1⟩)

/-! ## Derived views of `createSession`, used to state its characterization -/

/-- The session row as it stands after `createSession` wrote the real
refresh-token hash into it. -/
def newSessionRec (cfg : Config) (nowMs : Nat) (uid : String) (dt : Option String)
    (ip : String) (st : St) : SessionRec :=
  ⟨freshId st, uid, hashTokenM (generateRefreshToken cfg nowMs ⟨uid, freshId st⟩),
   dt, ip, nowMs + cfg.refreshExpMs, nowMs⟩

/-- The account's sessions right after creation, ordered by `createdAt`
descending — the list `createSession` slices at 5. -/
def candSessions (cfg : Config) (nowMs : Nat) (uid : String) (dt : Option String)
    (ip : String) (st : St) : List SessionRec :=
  sortByCreatedDesc (sessionsOfUser st uid ++ [newSessionRec cfg nowMs uid dt ip st])

/-- The sessions `createSession` evicts (everything beyond the newest 5). -/
def evictedSessions (cfg : Config) (nowMs : Nat) (uid : String) (dt : Option String)
    (ip : String) (st : St) : List SessionRec :=
  (candSessions cfg nowMs uid dt ip st).drop 5

/-! ## Rotation blocking and the operation step relation (for claim C3) -/

/-- The presented token `tok` cannot pass the rotation hash check in state
`st`: every session whose id equals the token's embedded session id stores a
hash different from the token's digest. -/
def rotBlocked (st : St) (tok : SignedToken) : Prop :=
  ∀ s ∈ st.sessions, s.id = tok.payload.sessionId → s.refreshTokenHash ≠ some tok

/-- One externally triggered service operation on state `st`, executed at
clock `nowMs`, yielding the target state. -/
inductive Step (cfg : Config) (st : St) (nowMs : Nat) : St → Prop where
  | send : ∀ (phone code : String),
      Step cfg st nowMs (sendVerificationCode nowMs phone code st).2
  | verifyCode : ∀ (input : VerifyCodeInput) (ip : String),
      Step cfg st nowMs (verifyPhoneCode cfg nowMs input ip st).2
  | google : ∀ (input : GoogleAuthInput) (ip : String),
      Step cfg st nowMs (authenticateWithGoogle cfg nowMs input ip st).2
  | apple : ∀ (input : AppleAuthInput) (ip : String),
      Step cfg st nowMs (authenticateWithApple cfg nowMs input ip st).2
  | create : ∀ (uid : String) (dt : Option String) (ip : String),
      Step cfg st nowMs (createSession cfg nowMs uid dt ip st).2
  | rotate : ∀ (tok : SignedToken) (ip : String),
      Step cfg st nowMs (refreshTokens cfg nowMs tok ip st).2
  | doLogout : ∀ (sid : String),
      Step cfg st nowMs (logout st sid)
  | checkAuth : ∀ (tok : SignedToken),
      Step cfg st nowMs (authenticate cfg nowMs tok st).2

/-- States reachable from `st` through operations all executed at clock
seconds strictly later than `tsec`. -/
inductive ReachAfter (cfg : Config) (tsec : Nat) (st : St) : St → Prop where
  | refl : ReachAfter cfg tsec st st
  | tail : ∀ (st1 st2 : St) (nowMs : Nat), ReachAfter cfg tsec st st1 →
      Step cfg st1 nowMs st2 → tsec < nowMs / 1000 → ReachAfter cfg tsec st st2

/-- Hash provenance: every session of `st2` either already existed in `st1`
or stores a hash of a refresh token signed at clock `nowMs` — the only way
any operation ever writes a refresh-token hash. -/
def hashProv (cfg : Config) (nowMs : Nat) (st1 st2 : St) : Prop :=
  ∀ r ∈ st2.sessions, r ∈ st1.sessions ∨
    ∃ p, r.refreshTokenHash = some (jwtSign p cfg.refreshSecret cfg.refreshExpMs nowMs)

/-! ## Concrete fixtures used by the closed theorems below -/

/-- A configuration with the production lifetimes (15 minutes / 30 days)
and two distinct secrets. -/
def cfgEx : Config := ⟨"access-secret", "refresh-secret", 900000, 2592000000⟩

/-- One phone-verified account. -/
def userEx : UserRec := { id := "u1", phone := some "+14155551234", verifiedBadges := ["PHONE"] }

/-- A store holding just that account. -/
def stInit : St := ⟨[userEx], [], 0, ⟨[], []⟩⟩

/-- Fallback token pair used to destructure `Except` results in fixtures. -/
def emptyTokens : AuthTokens := ⟨⟨⟨"", ""⟩, 0, 0, ""⟩, ⟨⟨"", ""⟩, 0, 0, ""⟩, 0⟩

/-- Extract the token pair of a successful result. -/
def getTokens (r : Except AuthError AuthTokens) : AuthTokens :=
  match r with
  | .ok t => t
  | .error _ => emptyTokens

/-- The `isNewUser` flag of a successful `AuthResponse` result. -/
def isNewOf (r : Except AuthError AuthResponse) : Bool :=
  match r with
  | .ok a => a.user.isNewUser
  | .error _ => false

/-! Fixtures for claim C1: two live sessions (`c0` and `c1`) for account
`u1`, session `c0` rotated once at t=3000, then its superseded refresh token
replayed at t=4000. -/

def stC1a : St := (createSession cfgEx 1000 "u1" none "ip" stInit).2

def toksC1a : AuthTokens := getTokens (createSession cfgEx 1000 "u1" none "ip" stInit).1

def stC1b : St := (createSession cfgEx 2000 "u1" none "ip" stC1a).2

def toksC1b : AuthTokens := getTokens (createSession cfgEx 2000 "u1" none "ip" stC1a).1

def stC1c : St := (refreshTokens cfgEx 3000 toksC1a.refreshToken "ip" stC1b).2

def replayC1 : Except AuthError AuthTokens × St :=
  refreshTokens cfgEx 4000 toksC1a.refreshToken "ip" stC1c

/-! Fixtures for claim C2: a Google authentication and an Apple
authentication whose identity-token payloads share the email
`ann@example.com`, in both orders. -/

def googleInC2 : GoogleAuthInput := ⟨.decoded "gsub" (some "ann@example.com") (some "Ann") none, none⟩

def appleInC2 : AppleAuthInput := ⟨.decoded "asub" (some "ann@example.com") none none, none, none⟩

def stC2google : St := (authenticateWithGoogle cfgEx 1000 googleInC2 "ip" stInit).2

def resC2googleFirst : Except AuthError AuthResponse :=
  (authenticateWithGoogle cfgEx 1000 googleInC2 "ip" stInit).1

def resC2appleSecond : Except AuthError AuthResponse :=
  (authenticateWithApple cfgEx 2000 appleInC2 "ip" stC2google).1

def stC2apple : St := (authenticateWithApple cfgEx 1000 appleInC2 "ip" stInit).2

def resC2googleSecond : Except AuthError AuthResponse :=
  (authenticateWithGoogle cfgEx 2000 googleInC2 "ip" stC2apple).1

def stC2googleSecond : St := (authenticateWithGoogle cfgEx 2000 googleInC2 "ip" stC2apple).2

/-! Fixtures for claims C7 and C3. -/

def rlC7a : RlState := (rateLimitHandler 1 10 0 ⟨[]⟩).2

def rlC7b : RlState := (rateLimitHandler 1 10 5000 rlC7a).2

def fwC7a : FixedWindowState := (fixedWindowHandler 1 10 0 ⟨none, 0⟩).2

def fwC7b : FixedWindowState := (fixedWindowHandler 1 10 5000 fwC7a).2

/-- State after one login for `u1` at t=1000 (session `c0`). -/
def stC3 : St := (createSession cfgEx 1000 "u1" none "ip" stInit).2

/-- The refresh token issued by that login. -/
def tokC3 : SignedToken := (getTokens (createSession cfgEx 1000 "u1" none "ip" stInit).1).refreshToken

/-- The session row `stC3` holds for `c0` (hash, expiry and creation time as
written by `createSession` at t=1000ms). -/
def sC3w : SessionRec :=
  ⟨"c0", "u1", hashTokenM (generateRefreshToken cfgEx 1000 ⟨"u1", "c0"⟩), none, "ip",
   1000 + 2592000000, 1000⟩

/-- Fixture for claim C4: five existing sessions for `u1` with ascending
creation times. -/
def stC4 : St :=
  ⟨[userEx],
   [⟨"s1", "u1", none, none, "ip", 9999999, 100⟩,
    ⟨"s2", "u1", none, none, "ip", 9999999, 200⟩,
    ⟨"s3", "u1", none, none, "ip", 9999999, 300⟩,
    ⟨"s4", "u1", none, none, "ip", 9999999, 400⟩,
    ⟨"s5", "u1", none, none, "ip", 9999999, 500⟩],
   0, ⟨[], []⟩⟩

/-- Fixture for claim C10: a session row still holding the creation-time
placeholder hash. -/
def stC10 : St := ⟨[userEx], [⟨"s9", "u1", none, none, "ip", 5000000, 0⟩], 0, ⟨[], []⟩⟩

/-- A structurally valid refresh token naming that session. -/
def tokC10 : SignedToken := ⟨⟨"u1", "s9"⟩, 1, 2592001, "refresh-secret"⟩

/-- Fixture for claim C6: a session with only 500ms of life left and an
empty cache. -/
def stC6 : St := ⟨[userEx], [⟨"s1", "u1", none, none, "ip", 1500, 0⟩], 5, ⟨[], []⟩⟩

/-- A valid access token for that session. -/
def tokC6 : SignedToken := ⟨⟨"u1", "s1"⟩, 0, 100, "access-secret"⟩

/-- Fixture for claim C5: a live verification challenge `123456` for the
phone `+14155551234`, stored until t=400000ms. -/
def stC5 : St :=
  ⟨[userEx], [], 0, ⟨[("verification:+14155551234", ⟨"123456", 400000⟩)], []⟩⟩

/-- The verify-code input matching that challenge. -/
def inC5 : VerifyCodeInput := ⟨"+14155551234", "123456", none⟩

/-! ## General helper lemmas -/

theorem strings_redisIncr (r : RedisState) (nowMs : Nat) (k : String) :
    ((redisIncr r nowMs k).2).strings = r.strings := by
  unfold redisIncr
  cases h : r.counters.find? (fun p => p.1 = k) with
  | none => rfl
  | some p =>
    cases p with
    | mk k0 c => by_cases hl : ctrLive nowMs c <;> simp [hl]

theorem strings_redisExpireCtr (r : RedisState) (nowMs : Nat) (k : String) (sec : Nat) :
    (redisExpireCtr r nowMs k sec).strings = r.strings := by
  unfold redisExpireCtr
  cases h : r.counters.find? (fun p => p.1 = k) with
  | none => rfl
  | some p => cases p with | mk k0 c => rfl

theorem redisGet_congr {r r' : RedisState} (h : r.strings = r'.strings) (nowMs : Nat)
    (k : String) : redisGet r nowMs k = redisGet r' nowMs k := by
  unfold redisGet
  rw [h]

theorem redisGet_redisSet_same (r : RedisState) (nowMs now2 : Nat) (k v : String) (ttl : Nat) :
    redisGet (redisSet r nowMs k v ttl) now2 k =
      if now2 < nowMs + ttl * 1000 then some v else none := by
  unfold redisGet redisSet
  rw [List.find?_cons_of_pos _ (by simp)]

/-! ## Claim C8 -/

/-- C8: for every userId and sessionId, assuming the access secret and the
refresh secret differ, a token produced by `generateAccessToken` is rejected
by refresh-token verification, so an access token presented to
`refreshTokens` always fails with `InvalidRefreshToken`, leaving the state
untouched, and never rotates a session. -/
theorem C8_access_token_never_rotates (cfg : Config)
    (hsec : cfg.accessSecret ≠ cfg.refreshSecret)
    (nowIss nowRot : Nat) (p : JwtPayload) (ip : String) (st : St) :
    refreshTokens cfg nowRot (generateAccessToken cfg nowIss p) ip st =
      (.error .invalidRefreshToken, st) := by
  unfold refreshTokens verifyRefreshToken jwtVerify generateAccessToken jwtSign
  simp [hsec]

/-- Witness for C8 at a concrete configuration, payload and state. -/
theorem C8_access_token_never_rotates_witness :
    cfgEx.accessSecret ≠ cfgEx.refreshSecret ∧
      refreshTokens cfgEx 5000 (generateAccessToken cfgEx 1000 ⟨"u1", "s1"⟩) "ip" stInit =
        (.error .invalidRefreshToken, stInit) :=
  ⟨by decide, C8_access_token_never_rotates cfgEx (by decide) 1000 5000 ⟨"u1", "s1"⟩ "ip" stInit⟩

/-! ## Claim C9 -/

/-- C9: every `sendVerificationCode` call — also one that fails with 429
because the attempt counter went past 5 — has already overwritten the stored
verification challenge for the phone with the newly generated code under a
fresh 5-minute TTL: in the post-state the challenge entry holds exactly the
new code with absolute expiry `nowMs + 300000`. -/
theorem C9_challenge_overwritten_even_when_rate_limited (nowMs : Nat) (phone code : String)
    (st : St) :
    redisGet (sendVerificationCode nowMs phone code st).2.redis nowMs
        ("verification:" ++ phone) = some code ∧
    ((sendVerificationCode nowMs phone code st).2.redis.strings.find?
        (fun p => p.1 = "verification:" ++ phone)) =
      some ("verification:" ++ phone, ⟨code, nowMs + 300000⟩) := by
  have hstr : (sendVerificationCode nowMs phone code st).2.redis.strings =
      (redisSet st.redis nowMs ("verification:" ++ phone) code 300).strings := by
    unfold sendVerificationCode
    dsimp only
    split <;> split <;> simp [strings_redisExpireCtr, strings_redisIncr]
  constructor
  · rw [redisGet_congr hstr, redisGet_redisSet_same]
    simp
  · rw [hstr]
    unfold redisSet
    rw [List.find?_cons_of_pos _ (by simp)]

/-! ## Store and service helper lemmas -/

theorem jwtVerify_some {t : SignedToken} {secret : String} {nowMs : Nat} {p : JwtPayload}
    (h : jwtVerify t secret nowMs = some p) : p = t.payload := by
  unfold jwtVerify at h
  split at h
  · exact (Option.some.inj h).symm
  · exact absurd h (by simp)

theorem find?_filter_of_imp {α : Type} (l : List α) (p q : α → Bool)
    (h : ∀ x, p x = true → q x = true) : (l.filter q).find? p = l.find? p := by
  induction l with
  | nil => rfl
  | cons a l ih =>
    by_cases hq : q a
    · by_cases hp : p a <;> simp [List.filter_cons, hq, List.find?_cons, hp, ih]
    · have hp : p a = false := by
        cases hpa : p a
        · rfl
        · exact absurd (h a hpa) (by simp [hq])
      simp [List.filter_cons, hq, List.find?_cons, hp, ih]

theorem redisGet_redisSet_other (r : RedisState) (nowMs n2 : Nat) (k v : String) (ttl : Nat)
    (k2 : String) (hk : k2 ≠ k) :
    redisGet (redisSet r nowMs k v ttl) n2 k2 = redisGet r n2 k2 := by
  unfold redisGet redisSet
  rw [List.find?_cons_of_neg _ (by simpa using Ne.symm hk)]
  rw [find?_filter_of_imp]
  intro x hx
  simp only [decide_eq_true_eq] at hx
  simp [hx, hk]

theorem redisGet_redisDel_self (r : RedisState) (n2 : Nat) (k : String) :
    redisGet (redisDel r k) n2 k = none := by
  unfold redisGet redisDel
  rw [List.find?_eq_none.mpr]
  intro x hx
  have := (List.mem_filter.mp hx).2
  simpa using this

theorem redisGet_redisDel_other (r : RedisState) (n2 : Nat) (k k2 : String) (hk : k2 ≠ k) :
    redisGet (redisDel r k) n2 k2 = redisGet r n2 k2 := by
  unfold redisGet redisDel
  rw [find?_filter_of_imp]
  intro x hx
  simp only [decide_eq_true_eq] at hx
  simp [hx, hk]

theorem redisGet_foldl_del_preserve (l : List SessionRec) (r : RedisState) (n2 : Nat)
    (k : String) (h : redisGet r n2 k = none) :
    redisGet (l.foldl (fun acc s => redisDel acc (sessionCacheKey s.id)) r) n2 k = none := by
  induction l generalizing r with
  | nil => exact h
  | cons a l ih =>
    apply ih
    by_cases hk : k = sessionCacheKey a.id
    · subst hk
      exact redisGet_redisDel_self _ _ _
    · rw [redisGet_redisDel_other _ _ _ _ hk]
      exact h

theorem redisGet_foldl_del_other (l : List SessionRec) (r : RedisState) (n2 : Nat)
    (k : String) (h : ∀ s ∈ l, k ≠ sessionCacheKey s.id) :
    redisGet (l.foldl (fun acc s => redisDel acc (sessionCacheKey s.id)) r) n2 k =
      redisGet r n2 k := by
  induction l generalizing r with
  | nil => rfl
  | cons a l ih =>
    rw [List.foldl_cons, ih _ (fun s hs => h s (List.mem_cons_of_mem _ hs)),
        redisGet_redisDel_other _ _ _ _ (h a (List.mem_cons_self _ _))]

theorem redisGet_foldl_del_of_mem (l : List SessionRec) (r : RedisState) (n2 : Nat)
    (k : String) (h : ∃ s ∈ l, sessionCacheKey s.id = k) :
    redisGet (l.foldl (fun acc s => redisDel acc (sessionCacheKey s.id)) r) n2 k = none := by
  induction l generalizing r with
  | nil => obtain ⟨s, hs, _⟩ := h; exact absurd hs (by simp)
  | cons a l ih =>
    rw [List.foldl_cons]
    obtain ⟨s, hs, hk⟩ := h
    rcases List.mem_cons.mp hs with rfl | hs2
    · apply redisGet_foldl_del_preserve
      rw [← hk]
      exact redisGet_redisDel_self _ _ _
    · exact ih _ ⟨s, hs2, hk⟩

theorem sessionCacheKey_ne_verificationKey (a b : String) :
    sessionCacheKey a ≠ "verification:" ++ b := by
  intro h
  have hd : ("session:" ++ a).data = ("verification:" ++ b).data := by
    rw [show ("session:" ++ a) = sessionCacheKey a from rfl, h]
  rw [String.data_append, String.data_append] at hd
  have h1 : "session:".data = ['s', 'e', 's', 's', 'i', 'o', 'n', ':'] := rfl
  have h2 : "verification:".data = ['v', 'e', 'r', 'i', 'f', 'i', 'c', 'a', 't', 'i', 'o', 'n', ':'] := rfl
  rw [h1, h2] at hd
  simp at hd

theorem sessionCacheKey_injective {a b : String} (h : sessionCacheKey a = sessionCacheKey b) :
    a = b := by
  have hd := congrArg String.data h
  unfold sessionCacheKey at hd
  rw [String.data_append, String.data_append] at hd
  exact String.ext (List.append_cancel_left hd)

theorem createSession_fst (cfg : Config) (nowMs : Nat) (uid : String) (dt : Option String)
    (ip : String) (st : St) (u : UserRec)
    (hu : st.users.find? (fun v => v.id = uid) = some u) :
    (createSession cfg nowMs uid dt ip st).1 =
      .ok ⟨generateAccessToken cfg nowMs ⟨uid, freshId st⟩,
           generateRefreshToken cfg nowMs ⟨uid, freshId st⟩, 900⟩ := by
  unfold createSession userUpdate sessionUpdate
  dsimp only
  rw [hu]
  dsimp only
  split <;> rfl

theorem createSession_isOk (cfg : Config) (nowMs : Nat) (uid : String) (dt : Option String)
    (ip : String) (st : St) (h : ∃ u ∈ st.users, u.id = uid) :
    ((createSession cfg nowMs uid dt ip st).1).isOk = true := by
  cases hf : st.users.find? (fun v => v.id = uid) with
  | none =>
    exfalso
    obtain ⟨u, hu, hid⟩ := h
    have := List.find?_eq_none.mp hf u hu
    simp [hid] at this
  | some u =>
    rw [createSession_fst cfg nowMs uid dt ip st u hf]
    rfl

theorem finishAuth_fst_isOk (cfg : Config) (nowMs : Nat) (user : UserRec) (b : Bool)
    (dt : Option String) (ip : String) (st : St)
    (h : ((createSession cfg nowMs user.id dt ip st).1).isOk = true) :
    ((finishAuth cfg nowMs user b dt ip st).1).isOk = true := by
  unfold finishAuth
  generalize hc : createSession cfg nowMs user.id dt ip st = res at h ⊢
  obtain ⟨r, st1⟩ := res
  cases r with
  | error e => simp [Except.isOk, Except.toBool] at h
  | ok t => rfl

theorem finishAuth_snd (cfg : Config) (nowMs : Nat) (user : UserRec) (b : Bool)
    (dt : Option String) (ip : String) (st : St) :
    (finishAuth cfg nowMs user b dt ip st).2 = (createSession cfg nowMs user.id dt ip st).2 := by
  unfold finishAuth
  generalize createSession cfg nowMs user.id dt ip st = res
  obtain ⟨r, st1⟩ := res
  cases r <;> rfl

theorem optClash_some_of_ne {x : String} {b : Option String} (h : b ≠ some x) :
    optClash (some x) b = false := by
  cases b with
  | none => rfl
  | some y =>
    have hxy : ¬ x = y := fun hxy => h (congrArg some hxy.symm)
    simp [optClash, hxy]

theorem createSession_redis_other (cfg : Config) (nowMs n2 : Nat) (uid : String)
    (dt : Option String) (ip : String) (st : St) (k : String)
    (hk : ∀ sid, k ≠ sessionCacheKey sid) :
    redisGet (createSession cfg nowMs uid dt ip st).2.redis n2 k =
      redisGet st.redis n2 k := by
  unfold createSession userUpdate sessionUpdate
  dsimp only
  cases hf : st.users.find? (fun v => v.id = uid) with
  | none =>
    exact redisGet_redisSet_other _ _ _ _ _ _ _ (hk _)
  | some u =>
    dsimp only
    split
    · rw [redisGet_foldl_del_other _ _ _ _ (fun s _ => hk _)]
      exact redisGet_redisSet_other _ _ _ _ _ _ _ (hk _)
    · exact redisGet_redisSet_other _ _ _ _ _ _ _ (hk _)

theorem optClash_none_left (b : Option String) : optClash none b = false := by
  cases b <;> rfl

theorem verifyPhoneCode_none_fst (cfg : Config) (now2 : Nat) (input : VerifyCodeInput)
    (ip2 : String) (st2 : St)
    (h : redisGet st2.redis now2 ("verification:" ++ input.phone) = none) :
    (verifyPhoneCode cfg now2 input ip2 st2).1 = .error .codeExpiredOrNotFound := by
  unfold verifyPhoneCode
  dsimp only
  rw [h]

theorem verifyPhoneCode_mismatch_fst (cfg : Config) (now2 : Nat) (input : VerifyCodeInput)
    (ip2 : String) (st2 : St) (stored : String)
    (h : redisGet st2.redis now2 ("verification:" ++ input.phone) = some stored)
    (hne : stored ≠ input.code) :
    (verifyPhoneCode cfg now2 input ip2 st2).1 = .error .invalidCode := by
  unfold verifyPhoneCode
  dsimp only
  rw [h]
  dsimp only
  rw [if_pos hne]

theorem verifyPhoneCode_ok (cfg : Config) (nowMs : Nat) (input : VerifyCodeInput)
    (ip : String) (st : St)
    (hstored : redisGet st.redis nowMs ("verification:" ++ input.phone) = some input.code) :
    ((verifyPhoneCode cfg nowMs input ip st).1).isOk = true := by
  unfold verifyPhoneCode
  dsimp only
  rw [hstored]
  dsimp only
  rw [if_neg (fun hne => hne rfl)]
  cases hf : st.users.find? (fun u => u.phone = some input.phone) with
  | none =>
    dsimp only
    have hnophone : ∀ u ∈ st.users, u.phone ≠ some input.phone := by
      intro u hu
      have := List.find?_eq_none.mp hf u hu
      simpa using this
    have hclash : userClash st.users
        { id := freshId { st with redis := redisDel st.redis ("verification:" ++ input.phone) },
          phone := some input.phone, verifiedBadges := ["PHONE"] } = false := by
      unfold userClash
      rw [List.any_eq_false]
      intro v hv
      simp [optClash_none_left, optClash_some_of_ne (hnophone v hv)]
    unfold userCreate
    dsimp only
    rw [if_neg (by simp [hclash])]
    dsimp only
    apply finishAuth_fst_isOk
    apply createSession_isOk
    exact ⟨_, List.mem_append_right _ (List.mem_singleton.mpr rfl), rfl⟩
  | some user0 =>
    dsimp only
    have hmem0 : user0 ∈ st.users := List.mem_of_find?_eq_some hf
    by_cases hb : user0.verifiedBadges.contains "PHONE" = true
    · rw [if_pos hb]
      apply finishAuth_fst_isOk
      apply createSession_isOk
      exact ⟨user0, hmem0, rfl⟩
    · rw [if_neg hb]
      unfold userUpdate
      dsimp only
      cases hf2 : st.users.find? (fun u => u.id = user0.id) with
      | none =>
        exfalso
        have := List.find?_eq_none.mp hf2 user0 hmem0
        simp at this
      | some w =>
        dsimp only
        apply finishAuth_fst_isOk
        apply createSession_isOk
        refine ⟨{ w with verifiedBadges := w.verifiedBadges ++ ["PHONE"] }, ?_, rfl⟩
        have hww : w.id = user0.id := by
          have := List.find?_some hf2
          simpa using this
        have hmap := List.mem_map_of_mem
          (fun v => if v.id = user0.id then { v with verifiedBadges := v.verifiedBadges ++ ["PHONE"] } else v)
          (List.mem_of_find?_eq_some hf2)
        dsimp only at hmap
        rw [if_pos hww] at hmap
        exact hmap

theorem userCreate_redis {st : St} {mk : String → UserRec} {u : UserRec} {st2 : St}
    (h : userCreate st mk = .ok (u, st2)) : st2.redis = st.redis := by
  unfold userCreate at h
  dsimp only at h
  split at h
  · exact absurd h (by simp)
  · injection h with h1
    injection h1 with h2 h3
    subst h3
    rfl

theorem userUpdate_redis {st : St} {uid : String} {f : UserRec → UserRec} {u : UserRec} {st2 : St}
    (h : userUpdate st uid f = .ok (u, st2)) : st2.redis = st.redis := by
  unfold userUpdate at h
  split at h
  · exact absurd h (by simp)
  · injection h with h1
    injection h1 with h2 h3
    subst h3
    rfl

theorem verifyPhoneCode_challenge_deleted (cfg : Config) (nowMs : Nat) (input : VerifyCodeInput)
    (ip : String) (st : St)
    (hstored : redisGet st.redis nowMs ("verification:" ++ input.phone) = some input.code) :
    ∀ n2, redisGet (verifyPhoneCode cfg nowMs input ip st).2.redis n2
      ("verification:" ++ input.phone) = none := by
  intro n2
  have hk : ∀ sid, ("verification:" ++ input.phone) ≠ sessionCacheKey sid :=
    fun sid => Ne.symm (sessionCacheKey_ne_verificationKey sid input.phone)
  have hdel : redisGet (redisDel st.redis ("verification:" ++ input.phone)) n2
      ("verification:" ++ input.phone) = none := redisGet_redisDel_self _ _ _
  unfold verifyPhoneCode
  dsimp only
  rw [hstored]
  dsimp only
  rw [if_neg (fun hne => hne rfl)]
  cases hf : st.users.find? (fun u => u.phone = some input.phone) with
  | none =>
    dsimp only
    split
    · exact hdel
    · next user st2 heq =>
      rw [finishAuth_snd, createSession_redis_other _ _ _ _ _ _ _ _ hk,
          userCreate_redis heq]
      exact hdel
  | some user0 =>
    dsimp only
    split
    · rw [finishAuth_snd, createSession_redis_other _ _ _ _ _ _ _ _ hk]
      exact hdel
    · split
      · exact hdel
      · next user st2 heq =>
        rw [finishAuth_snd, createSession_redis_other _ _ _ _ _ _ _ _ hk,
            userUpdate_redis heq]
        exact hdel

/-! ## Claim C5 -/

/-- C5: for every phone with a stored, unexpired challenge, `verifyPhoneCode`
with the matching code succeeds and deletes the challenge, so the
immediately following call with the same phone and code fails with the
expired-or-not-found error; and in any state, a missing challenge or a
mismatching code fails with the corresponding error — both errors being the
specification's `InvalidCredential` class. -/
theorem C5_verify_code_single_use (cfg : Config) (nowMs : Nat) (input : VerifyCodeInput)
    (ip : String) (st : St)
    (hstored : redisGet st.redis nowMs ("verification:" ++ input.phone) = some input.code) :
    ((verifyPhoneCode cfg nowMs input ip st).1).isOk = true ∧
    (∀ (now2 : Nat) (ip2 : String),
      (verifyPhoneCode cfg now2 input ip2 (verifyPhoneCode cfg nowMs input ip st).2).1 =
        .error .codeExpiredOrNotFound) ∧
    (∀ (st2 : St) (now2 : Nat) (ip2 : String),
      redisGet st2.redis now2 ("verification:" ++ input.phone) = none →
      (verifyPhoneCode cfg now2 input ip2 st2).1 = .error .codeExpiredOrNotFound) ∧
    (∀ (st2 : St) (now2 : Nat) (ip2 : String) (stored : String),
      redisGet st2.redis now2 ("verification:" ++ input.phone) = some stored →
      stored ≠ input.code →
      (verifyPhoneCode cfg now2 input ip2 st2).1 = .error .invalidCode) ∧
    AuthError.codeExpiredOrNotFound.isInvalidCredential = true ∧
    AuthError.invalidCode.isInvalidCredential = true := by
  refine ⟨verifyPhoneCode_ok cfg nowMs input ip st hstored, ?_, ?_, ?_, rfl, rfl⟩
  · intro now2 ip2
    exact verifyPhoneCode_none_fst cfg now2 input ip2 _
      (verifyPhoneCode_challenge_deleted cfg nowMs input ip st hstored now2)
  · intro st2 now2 ip2 h
    exact verifyPhoneCode_none_fst cfg now2 input ip2 st2 h
  · intro st2 now2 ip2 stored h hne
    exact verifyPhoneCode_mismatch_fst cfg now2 input ip2 st2 stored h hne

/-- Witness for C5 at the concrete challenge fixture. -/
theorem C5_verify_code_single_use_witness :
    redisGet stC5.redis 1000 ("verification:" ++ inC5.phone) = some inC5.code ∧
    (((verifyPhoneCode cfgEx 1000 inC5 "ip" stC5).1).isOk = true ∧
     (∀ (now2 : Nat) (ip2 : String),
       (verifyPhoneCode cfgEx now2 inC5 ip2 (verifyPhoneCode cfgEx 1000 inC5 "ip" stC5).2).1 =
         .error .codeExpiredOrNotFound) ∧
     (∀ (st2 : St) (now2 : Nat) (ip2 : String),
       redisGet st2.redis now2 ("verification:" ++ inC5.phone) = none →
       (verifyPhoneCode cfgEx now2 inC5 ip2 st2).1 = .error .codeExpiredOrNotFound) ∧
     (∀ (st2 : St) (now2 : Nat) (ip2 : String) (stored : String),
       redisGet st2.redis now2 ("verification:" ++ inC5.phone) = some stored →
       stored ≠ inC5.code →
       (verifyPhoneCode cfgEx now2 inC5 ip2 st2).1 = .error .invalidCode) ∧
     AuthError.codeExpiredOrNotFound.isInvalidCredential = true ∧
     AuthError.invalidCode.isInvalidCredential = true) :=
  ⟨by decide, C5_verify_code_single_use cfgEx 1000 inC5 "ip" stC5 (by decide)⟩

theorem map_if_id (sid : String) (f : SessionRec → SessionRec) (l : List SessionRec)
    (h : ∀ s ∈ l, s.id ≠ sid) :
    l.map (fun s => if s.id = sid then f s else s) = l := by
  induction l with
  | nil => rfl
  | cons a t ih =>
    rw [List.map_cons, if_neg (h a (List.mem_cons_self _ _)),
        ih (fun s hs => h s (List.mem_cons_of_mem _ hs))]

theorem createSession_char (cfg : Config) (nowMs : Nat) (uid : String) (dt : Option String)
    (ip : String) (st : St) (u : UserRec)
    (hu : st.users.find? (fun v => v.id = uid) = some u)
    (hfresh : ∀ s ∈ st.sessions, s.id ≠ freshId st) :
    (createSession cfg nowMs uid dt ip st).2.sessions =
      (if (candSessions cfg nowMs uid dt ip st).length > 5
       then (st.sessions ++ [newSessionRec cfg nowMs uid dt ip st]).filter
              (fun s => ¬ ((evictedSessions cfg nowMs uid dt ip st).map
                (fun x => x.id)).contains s.id)
       else st.sessions ++ [newSessionRec cfg nowMs uid dt ip st]) ∧
    (createSession cfg nowMs uid dt ip st).2.redis =
      (if (candSessions cfg nowMs uid dt ip st).length > 5
       then (evictedSessions cfg nowMs uid dt ip st).foldl
              (fun r s => redisDel r (sessionCacheKey s.id))
              (redisSet st.redis nowMs (sessionCacheKey (freshId st)) uid
                (cfg.refreshExpMs / 1000))
       else redisSet st.redis nowMs (sessionCacheKey (freshId st)) uid
              (cfg.refreshExpMs / 1000)) := by
  unfold createSession userUpdate sessionUpdate
  dsimp only
  rw [hu]
  dsimp only
  have hmap : List.map (fun s => if s.id = freshId st then
      { s with refreshTokenHash :=
          hashTokenM (generateRefreshToken cfg nowMs ⟨uid, freshId st⟩) } else s)
      (st.sessions ++ [⟨freshId st, uid, none, dt, ip, nowMs + cfg.refreshExpMs, nowMs⟩]) =
      st.sessions ++ [newSessionRec cfg nowMs uid dt ip st] := by
    rw [List.map_append, map_if_id (freshId st) _ st.sessions hfresh]
    simp [newSessionRec]
  rw [hmap]
  have hfil : List.filter (fun s => decide (s.userId = uid))
      (st.sessions ++ [newSessionRec cfg nowMs uid dt ip st]) =
      sessionsOfUser st uid ++ [newSessionRec cfg nowMs uid dt ip st] := by
    rw [List.filter_append]
    unfold sessionsOfUser
    congr 1
    simp [newSessionRec]
  unfold sessionsOfUser
  dsimp only
  rw [hfil]
  unfold candSessions evictedSessions
  split
  · exact ⟨rfl, rfl⟩
  · exact ⟨rfl, rfl⟩

/-! ## Claim C4 -/

/-- C4: after any `createSession` call on a well-formed state (the user row
exists, session ids are unique, the allocated id is fresh), the account
holds `min (previous + 1) 5` durable sessions — in particular at most 5 —
every evicted session is no newer (by `createdAt`) than every retained one,
and every evicted session's cache entry is gone from the fast store. -/
theorem C4_session_cap (cfg : Config) (nowMs : Nat) (uid : String) (dt : Option String)
    (ip : String) (st : St) (u : UserRec)
    (hu : st.users.find? (fun v => v.id = uid) = some u)
    (hnodup : (st.sessions.map (fun s => s.id)).Nodup)
    (hfresh : ∀ s ∈ st.sessions, s.id ≠ freshId st) :
    (sessionsOfUser (createSession cfg nowMs uid dt ip st).2 uid).length =
      min ((sessionsOfUser st uid).length + 1) 5 ∧
    (sessionsOfUser (createSession cfg nowMs uid dt ip st).2 uid).length ≤ 5 ∧
    (∀ kept ∈ sessionsOfUser (createSession cfg nowMs uid dt ip st).2 uid,
     ∀ e ∈ sessionsOfUser st uid,
       e.id ∉ (sessionsOfUser (createSession cfg nowMs uid dt ip st).2 uid).map
         (fun s => s.id) →
       e.createdAt ≤ kept.createdAt) ∧
    (∀ e ∈ sessionsOfUser st uid,
       e.id ∉ (sessionsOfUser (createSession cfg nowMs uid dt ip st).2 uid).map
         (fun s => s.id) →
       ∀ n2, redisExists (createSession cfg nowMs uid dt ip st).2.redis n2
         (sessionCacheKey e.id) = false) := by
  obtain ⟨hsess, hredis⟩ := createSession_char cfg nowMs uid dt ip st u hu hfresh
  set n := newSessionRec cfg nowMs uid dt ip st with hn
  set S := candSessions cfg nowMs uid dt ip st with hS
  set D := evictedSessions cfg nowMs uid dt ip st with hD
  set A : List SessionRec := sessionsOfUser st uid ++ [n] with hA
  have hSdef : S = sortByCreatedDesc A := rfl
  have hDdef : D = S.drop 5 := rfl
  have hSA : List.Perm S A := by
    rw [hSdef]
    exact List.perm_insertionSort _ _
  have hsorted : List.Pairwise createdDesc S := by
    rw [hSdef]
    exact List.sorted_insertionSort _ _
  have hSlen : S.length = A.length := hSA.length_eq
  have hAlen : A.length = (sessionsOfUser st uid).length + 1 := by simp [hA]
  have hnid : n.id = freshId st := rfl
  have hidsA : (A.map (fun s => s.id)).Nodup := by
    rw [hA, List.map_append]
    refine List.Nodup.append ?_ (by simp) ?_
    · exact ((List.filter_sublist _).map _).nodup hnodup
    · intro x hx hx2
      simp only [List.map_singleton, List.mem_singleton] at hx2
      obtain ⟨s, hs, hsid⟩ := List.mem_map.mp hx
      have hsmem : s ∈ st.sessions := (List.mem_filter.mp hs).1
      exact hfresh s hsmem (by rw [hsid, hx2, hnid])
  have hidsS : (S.map (fun s => s.id)).Nodup := ((hSA.map _).nodup_iff).mpr hidsA
  have hTD : S.take 5 ++ S.drop 5 = S := List.take_append_drop 5 S
  have hdisj : ∀ x ∈ S.take 5, x.id ∉ (S.drop 5).map (fun s => s.id) := by
    have hnd : ((S.take 5).map (fun s => s.id) ++ (S.drop 5).map (fun s => s.id)).Nodup := by
      rw [← List.map_append, hTD]
      exact hidsS
    have hdd := List.disjoint_of_nodup_append hnd
    intro x hx
    exact hdd (List.mem_map_of_mem _ hx)
  have hrel : ∀ x ∈ S.take 5, ∀ y ∈ S.drop 5, y.createdAt ≤ x.createdAt := by
    have hsorted2 : List.Pairwise createdDesc (S.take 5 ++ S.drop 5) := by
      rw [hTD]
      exact hsorted
    exact fun x hx y hy => (List.pairwise_append.mp hsorted2).2.2 x hx y hy
  have hfilA : List.filter (fun s => decide (s.userId = uid)) (st.sessions ++ [n]) = A := by
    rw [List.filter_append, hA]
    congr 1
    simp [hn, newSessionRec]
  by_cases hlen : S.length > 5
  · rw [if_pos hlen] at hsess hredis
    have hsou : sessionsOfUser (createSession cfg nowMs uid dt ip st).2 uid =
        List.filter (fun s => decide (¬((D.map (fun x => x.id)).contains s.id = true)))
          A := by
      unfold sessionsOfUser
      rw [hsess, List.filter_comm, hfilA]
    have hpermS : List.Perm
        (List.filter (fun s => decide (¬((D.map (fun x => x.id)).contains s.id = true))) A)
        (List.filter (fun s => decide (¬((D.map (fun x => x.id)).contains s.id = true))) S) :=
      (hSA.symm).filter _
    have hsplit : List.filter (fun s => decide (¬((D.map (fun x => x.id)).contains s.id = true))) S =
        List.filter (fun s => decide (¬((D.map (fun x => x.id)).contains s.id = true))) (S.take 5) ++
        List.filter (fun s => decide (¬((D.map (fun x => x.id)).contains s.id = true))) (S.drop 5) := by
      rw [← List.filter_append, hTD]
    have hdropnil :
        List.filter (fun s => decide (¬((D.map (fun x => x.id)).contains s.id = true))) (S.drop 5) = [] := by
      rw [List.filter_eq_nil_iff]
      intro a ha
      simp only [decide_eq_true_eq, not_not]
      rw [hDdef]
      simpa using List.mem_map_of_mem (fun s => s.id) ha
    have htakeall :
        List.filter (fun s => decide (¬((D.map (fun x => x.id)).contains s.id = true))) (S.take 5) =
          S.take 5 := by
      rw [List.filter_eq_self]
      intro a ha
      simp only [decide_eq_true_eq]
      intro hcon
      rw [hDdef] at hcon
      exact hdisj a ha (by simpa using hcon)
    have hpermT : List.Perm (sessionsOfUser (createSession cfg nowMs uid dt ip st).2 uid)
        (S.take 5) := by
      rw [hsou]
      calc List.Perm _ _ := hpermS
      _ = _ := by rw [hsplit, hdropnil, htakeall, List.append_nil]
    have hlenT : (S.take 5).length = 5 := by
      rw [List.length_take]
      omega
    have hmemE : ∀ e ∈ sessionsOfUser st uid,
        e.id ∉ (sessionsOfUser (createSession cfg nowMs uid dt ip st).2 uid).map (fun s => s.id) →
        e ∈ S.drop 5 := by
      intro e he hid
      have heA : e ∈ A := by
        rw [hA]
        exact List.mem_append_left _ he
      have heS : e ∈ S := hSA.symm.mem_iff.mp heA
      have : e ∈ S.take 5 ++ S.drop 5 := by rw [hTD]; exact heS
      rcases List.mem_append.mp this with htk | hdr
      · exact absurd (List.mem_map_of_mem (fun s => s.id)
          (hpermT.symm.mem_iff.mp htk)) hid
      · exact hdr
    refine ⟨?_, ?_, ?_, ?_⟩
    · rw [hpermT.length_eq, hlenT]
      omega
    · rw [hpermT.length_eq, hlenT]
    · intro kept hkept e he hid
      have hkT : kept ∈ S.take 5 := hpermT.mem_iff.mp hkept
      exact hrel kept hkT e (hmemE e he hid)
    · intro e he hid n2
      have heD : e ∈ D := by rw [hDdef]; exact hmemE e he hid
      unfold redisExists
      rw [hredis, redisGet_foldl_del_of_mem D _ n2 _ ⟨e, heD, rfl⟩]
      rfl
  · rw [if_neg hlen] at hsess hredis
    have hsou : sessionsOfUser (createSession cfg nowMs uid dt ip st).2 uid = A := by
      unfold sessionsOfUser
      rw [hsess]
      exact hfilA
    refine ⟨?_, ?_, ?_, ?_⟩
    · rw [hsou, hAlen]
      omega
    · rw [hsou, hAlen]
      omega
    · intro kept hkept e he hid
      exfalso
      apply hid
      rw [hsou]
      exact List.mem_map_of_mem _ (by rw [hA]; exact List.mem_append_left _ he)
    · intro e he hid n2
      exfalso
      apply hid
      rw [hsou]
      exact List.mem_map_of_mem _ (by rw [hA]; exact List.mem_append_left _ he)

/-- Witness for C4: the sixth login for `u1` evicts exactly the oldest
session. -/
theorem C4_session_cap_witness :
    (stC4.users.find? (fun v => v.id = "u1") = some userEx ∧
     (stC4.sessions.map (fun s => s.id)).Nodup ∧
     (∀ s ∈ stC4.sessions, s.id ≠ freshId stC4)) ∧
    ((sessionsOfUser (createSession cfgEx 1000 "u1" none "ip" stC4).2 "u1").length =
      min ((sessionsOfUser stC4 "u1").length + 1) 5 ∧
     (sessionsOfUser (createSession cfgEx 1000 "u1" none "ip" stC4).2 "u1").length ≤ 5 ∧
     (∀ kept ∈ sessionsOfUser (createSession cfgEx 1000 "u1" none "ip" stC4).2 "u1",
      ∀ e ∈ sessionsOfUser stC4 "u1",
        e.id ∉ (sessionsOfUser (createSession cfgEx 1000 "u1" none "ip" stC4).2 "u1").map
          (fun s => s.id) →
        e.createdAt ≤ kept.createdAt) ∧
     (∀ e ∈ sessionsOfUser stC4 "u1",
        e.id ∉ (sessionsOfUser (createSession cfgEx 1000 "u1" none "ip" stC4).2 "u1").map
          (fun s => s.id) →
        ∀ n2, redisExists (createSession cfgEx 1000 "u1" none "ip" stC4).2.redis n2
          (sessionCacheKey e.id) = false)) :=
  ⟨⟨by decide, by decide, by decide⟩,
   C4_session_cap cfgEx 1000 "u1" none "ip" stC4 userEx (by decide) (by decide) (by decide)⟩

/-! ## Claim C6 -/

theorem newSession_not_evicted (cfg : Config) (nowMs : Nat) (uid : String)
    (dt : Option String) (ip : String) (st : St)
    (hold : ∀ s ∈ sessionsOfUser st uid, s.createdAt < nowMs) :
    newSessionRec cfg nowMs uid dt ip st ∉ evictedSessions cfg nowMs uid dt ip st := by
  intro hdr
  have hSA : List.Perm (candSessions cfg nowMs uid dt ip st)
      (sessionsOfUser st uid ++ [newSessionRec cfg nowMs uid dt ip st]) :=
    List.perm_insertionSort _ _
  have hTD : (candSessions cfg nowMs uid dt ip st).take 5 ++
      (candSessions cfg nowMs uid dt ip st).drop 5 = candSessions cfg nowMs uid dt ip st :=
    List.take_append_drop 5 _
  have hnotpre : newSessionRec cfg nowMs uid dt ip st ∉ sessionsOfUser st uid := by
    intro hnp
    exact absurd (hold _ hnp) (by simp [newSessionRec])
  have hcount : (candSessions cfg nowMs uid dt ip st).count
      (newSessionRec cfg nowMs uid dt ip st) = 1 := by
    rw [hSA.count_eq, List.count_append, List.count_eq_zero.mpr hnotpre]
    simp
  have hsplitc : ((candSessions cfg nowMs uid dt ip st).take 5).count
        (newSessionRec cfg nowMs uid dt ip st) +
      ((candSessions cfg nowMs uid dt ip st).drop 5).count
        (newSessionRec cfg nowMs uid dt ip st) = 1 := by
    rw [← List.count_append, hTD, hcount]
  have hdrc : 0 < ((candSessions cfg nowMs uid dt ip st).drop 5).count
      (newSessionRec cfg nowMs uid dt ip st) := List.count_pos_iff.mpr hdr
  have htkc : ((candSessions cfg nowMs uid dt ip st).take 5).count
      (newSessionRec cfg nowMs uid dt ip st) = 0 := by omega
  have hntk : newSessionRec cfg nowMs uid dt ip st ∉
      (candSessions cfg nowMs uid dt ip st).take 5 := by
    intro hm
    have := List.count_pos_iff.mpr hm
    omega
  -- the take-5 prefix is nonempty because the drop-5 suffix is
  have hlenpos : 0 < ((candSessions cfg nowMs uid dt ip st).take 5).length := by
    rw [List.length_take]
    have : 5 < (candSessions cfg nowMs uid dt ip st).length := by
      by_contra hle
      have hnil : (candSessions cfg nowMs uid dt ip st).drop 5 = [] :=
        List.drop_eq_nil_of_le (by omega)
      have hdr2 : newSessionRec cfg nowMs uid dt ip st ∈
          (candSessions cfg nowMs uid dt ip st).drop 5 := hdr
      rw [hnil] at hdr2
      exact absurd hdr2 (by simp)
    omega
  obtain ⟨x, hx⟩ := List.exists_mem_of_length_pos hlenpos
  have hxpre : x ∈ sessionsOfUser st uid := by
    have hxS : x ∈ candSessions cfg nowMs uid dt ip st := List.take_subset 5 _ hx
    have hxA := hSA.mem_iff.mp hxS
    rcases List.mem_append.mp hxA with hp | hn
    · exact hp
    · exact absurd (List.mem_singleton.mp hn ▸ hx) hntk
  have hsorted2 : List.Pairwise createdDesc
      ((candSessions cfg nowMs uid dt ip st).take 5 ++
       (candSessions cfg nowMs uid dt ip st).drop 5) := by
    rw [hTD]
    exact List.sorted_insertionSort _ _
  have hle : (newSessionRec cfg nowMs uid dt ip st).createdAt ≤ x.createdAt :=
    (List.pairwise_append.mp hsorted2).2.2 x hx _ hdr
  have hlt : x.createdAt < nowMs := hold x hxpre
  have : (newSessionRec cfg nowMs uid dt ip st).createdAt = nowMs := rfl
  omega

theorem evicted_id_ne_fresh (cfg : Config) (nowMs : Nat) (uid : String)
    (dt : Option String) (ip : String) (st : St)
    (hfresh : ∀ s ∈ st.sessions, s.id ≠ freshId st)
    (hold : ∀ s ∈ sessionsOfUser st uid, s.createdAt < nowMs) :
    ∀ s ∈ evictedSessions cfg nowMs uid dt ip st, s.id ≠ freshId st := by
  intro s hs hsid
  have hSA : List.Perm (candSessions cfg nowMs uid dt ip st)
      (sessionsOfUser st uid ++ [newSessionRec cfg nowMs uid dt ip st]) :=
    List.perm_insertionSort _ _
  have hsS : s ∈ candSessions cfg nowMs uid dt ip st := List.drop_subset 5 _ hs
  rcases List.mem_append.mp (hSA.mem_iff.mp hsS) with hp | hn
  · exact hfresh s (List.mem_filter.mp hp).1 hsid
  · rw [List.mem_singleton.mp hn] at hs
    exact newSession_not_evicted cfg nowMs uid dt ip st hold hs

theorem createSession_cache_hit (cfg : Config) (nowMs : Nat) (uid : String)
    (dt : Option String) (ip : String) (st : St) (u : UserRec)
    (hu : st.users.find? (fun v => v.id = uid) = some u)
    (hfresh : ∀ s ∈ st.sessions, s.id ≠ freshId st)
    (hold : ∀ s ∈ sessionsOfUser st uid, s.createdAt < nowMs)
    (hre : 1000 ≤ cfg.refreshExpMs) :
    redisExists (createSession cfg nowMs uid dt ip st).2.redis nowMs
      (sessionCacheKey (freshId st)) = true := by
  obtain ⟨_, hredis⟩ := createSession_char cfg nowMs uid dt ip st u hu hfresh
  have httl : 1 ≤ cfg.refreshExpMs / 1000 := (Nat.one_le_div_iff (by omega)).mpr hre
  have hlive : nowMs < nowMs + cfg.refreshExpMs / 1000 * 1000 := by omega
  unfold redisExists
  by_cases hlen : (candSessions cfg nowMs uid dt ip st).length > 5
  · rw [if_pos hlen] at hredis
    have hkeys : ∀ s ∈ evictedSessions cfg nowMs uid dt ip st,
        sessionCacheKey (freshId st) ≠ sessionCacheKey s.id := by
      intro s hs heq
      exact evicted_id_ne_fresh cfg nowMs uid dt ip st hfresh hold s hs
        (sessionCacheKey_injective heq).symm
    rw [hredis, redisGet_foldl_del_other _ _ _ _ hkeys, redisGet_redisSet_same,
        if_pos hlive]
    rfl
  · rw [if_neg hlen] at hredis
    rw [hredis, redisGet_redisSet_same, if_pos hlive]
    rfl

/-- C6, amended: the validity check is true immediately after
`createSession` (whatever the fast store held before, provided every
existing session of the account is strictly older than the new one, so the
new session is not itself evicted by the cap) and false immediately after
`logout`, for any token naming the session; a live cache entry is
sufficient on its own; and on a cache miss the durable row decides, being
re-cached with the remaining whole-second TTL whenever at least one full
second remains. -/
theorem C6_validity_after_create_and_revoke (cfg : Config) (nowMs : Nat) (uid : String)
    (dt : Option String) (ip : String) (st : St) (u : UserRec)
    (hu : st.users.find? (fun v => v.id = uid) = some u)
    (hfresh : ∀ s ∈ st.sessions, s.id ≠ freshId st)
    (hold : ∀ s ∈ sessionsOfUser st uid, s.createdAt < nowMs)
    (hre : 1000 ≤ cfg.refreshExpMs)
    (hacc : 1000 ≤ cfg.accessExpMs) :
    (authenticate cfg nowMs
        (getTokens (createSession cfg nowMs uid dt ip st).1).accessToken
        (createSession cfg nowMs uid dt ip st).2).1 = .ok ⟨uid, freshId st⟩ ∧
    (∀ (st2 : St) (sid : String) (tok : SignedToken) (now2 : Nat),
      tok.payload.sessionId = sid →
      (authenticate cfg now2 tok (logout st2 sid)).1 = .error .unauthorized) ∧
    (∀ (st2 : St) (tok : SignedToken) (now2 : Nat) (p : JwtPayload),
      verifyAccessToken cfg now2 tok = some p →
      redisExists st2.redis now2 (sessionCacheKey p.sessionId) = true →
      (authenticate cfg now2 tok st2).1 = .ok p ∧ (authenticate cfg now2 tok st2).2 = st2) ∧
    (∀ (st2 : St) (tok : SignedToken) (now2 : Nat) (p : JwtPayload) (s : SessionRec),
      verifyAccessToken cfg now2 tok = some p →
      redisExists st2.redis now2 (sessionCacheKey p.sessionId) = false →
      st2.sessions.find? (fun r => r.id = p.sessionId) = some s →
      now2 + 1000 ≤ s.expiresAt →
      (authenticate cfg now2 tok st2).1 = .ok p ∧
      redisGet (authenticate cfg now2 tok st2).2.redis now2 (sessionCacheKey p.sessionId) =
        some s.userId) := by
  refine ⟨?_, ?_, ?_, ?_⟩
  · have htok : getTokens (createSession cfg nowMs uid dt ip st).1 =
        ⟨generateAccessToken cfg nowMs ⟨uid, freshId st⟩,
         generateRefreshToken cfg nowMs ⟨uid, freshId st⟩, 900⟩ := by
      rw [createSession_fst cfg nowMs uid dt ip st u hu]
      rfl
    have hver : verifyAccessToken cfg nowMs
        (generateAccessToken cfg nowMs ⟨uid, freshId st⟩) = some ⟨uid, freshId st⟩ := by
      unfold verifyAccessToken generateAccessToken jwtVerify jwtSign
      dsimp only
      rw [if_pos ⟨rfl, by
        have : 1 ≤ cfg.accessExpMs / 1000 := (Nat.one_le_div_iff (by omega)).mpr hacc
        omega⟩]
    have hcache := createSession_cache_hit cfg nowMs uid dt ip st u hu hfresh hold hre
    rw [htok]
    unfold authenticate
    rw [hver]
    dsimp only
    rw [hcache]
    rfl
  · intro st2 sid tok now2 hsid
    unfold authenticate
    cases hv : verifyAccessToken cfg now2 tok with
    | none => rfl
    | some p =>
      dsimp only
      have hp : p = tok.payload := jwtVerify_some hv
      have hpsid : p.sessionId = sid := by rw [hp, hsid]
      have hlr : (logout st2 sid).redis = redisDel st2.redis (sessionCacheKey sid) := rfl
      have hnocache : redisExists (logout st2 sid).redis now2 (sessionCacheKey p.sessionId) =
          false := by
        unfold redisExists
        rw [hpsid, hlr, redisGet_redisDel_self]
        rfl
      rw [hnocache]
      rw [if_neg Bool.false_ne_true]
      rw [List.find?_eq_none.mpr ?hnof]
      case hnof =>
        intro r hr
        have := (List.mem_filter.mp hr).2
        simp only [decide_eq_true_eq] at this ⊢
        rw [hpsid]
        exact this
  · intro st2 tok now2 p hv hhit
    unfold authenticate
    rw [hv]
    dsimp only
    rw [hhit]
    exact ⟨rfl, rfl⟩
  · intro st2 tok now2 p s hv hmiss hfind hexp
    unfold authenticate
    rw [hv]
    dsimp only
    rw [hmiss]
    rw [if_neg Bool.false_ne_true]
    rw [hfind]
    dsimp only
    rw [if_neg (by omega)]
    have httl : 0 < (s.expiresAt - now2) / 1000 :=
      (Nat.one_le_div_iff (by omega)).mpr (by omega)
    rw [if_pos httl]
    refine ⟨rfl, ?_⟩
    dsimp only
    rw [redisGet_redisSet_same, if_pos (by omega)]

/-- C6 counterexample: a cache miss on a session with 500ms of remaining
life returns true (the session is valid and non-expired) but skips the
re-cache because the whole-second TTL floor is 0 — the durable record is
not re-cached before true is returned, contrary to the claim. -/
theorem C6_subsecond_recache_counterexample :
    (authenticate cfgEx 1000 tokC6 stC6).1 = .ok ⟨"u1", "s1"⟩ ∧
    (authenticate cfgEx 1000 tokC6 stC6).2 = stC6 ∧
    redisGet (authenticate cfgEx 1000 tokC6 stC6).2.redis 1000 (sessionCacheKey "s1") =
      none := by
  exact ⟨by decide, by decide, by decide⟩

/-- Witness for C6 at the empty-account fixture. -/
theorem C6_validity_witness :
    (stInit.users.find? (fun v => v.id = "u1") = some userEx ∧
     (∀ s ∈ stInit.sessions, s.id ≠ freshId stInit) ∧
     (∀ s ∈ sessionsOfUser stInit "u1", s.createdAt < 1000) ∧
     1000 ≤ cfgEx.refreshExpMs ∧ 1000 ≤ cfgEx.accessExpMs) ∧
    ((authenticate cfgEx 1000
        (getTokens (createSession cfgEx 1000 "u1" none "ip" stInit).1).accessToken
        (createSession cfgEx 1000 "u1" none "ip" stInit).2).1 = .ok ⟨"u1", freshId stInit⟩ ∧
     (∀ (st2 : St) (sid : String) (tok : SignedToken) (now2 : Nat),
       tok.payload.sessionId = sid →
       (authenticate cfgEx now2 tok (logout st2 sid)).1 = .error .unauthorized) ∧
     (∀ (st2 : St) (tok : SignedToken) (now2 : Nat) (p : JwtPayload),
       verifyAccessToken cfgEx now2 tok = some p →
       redisExists st2.redis now2 (sessionCacheKey p.sessionId) = true →
       (authenticate cfgEx now2 tok st2).1 = .ok p ∧
       (authenticate cfgEx now2 tok st2).2 = st2) ∧
     (∀ (st2 : St) (tok : SignedToken) (now2 : Nat) (p : JwtPayload) (s : SessionRec),
       verifyAccessToken cfgEx now2 tok = some p →
       redisExists st2.redis now2 (sessionCacheKey p.sessionId) = false →
       st2.sessions.find? (fun r => r.id = p.sessionId) = some s →
       now2 + 1000 ≤ s.expiresAt →
       (authenticate cfgEx now2 tok st2).1 = .ok p ∧
       redisGet (authenticate cfgEx now2 tok st2).2.redis now2
         (sessionCacheKey p.sessionId) = some s.userId)) :=
  ⟨⟨by decide, by decide, by decide, by decide, by decide⟩,
   C6_validity_after_create_and_revoke cfgEx 1000 "u1" none "ip" stInit userEx
     (by decide) (by decide) (by decide) (by decide) (by decide)⟩

/-! ## Claim C10 -/

/-- C10: `hashToken` always yields a 64-character (hence nonempty) hex
digest, so it can never equal the empty-string placeholder written when a
session row is created; consequently a rotation presented against a session
that still holds the placeholder hash (while the token itself verifies)
always takes the reuse branch — it fails with `SessionCompromised` rather
than succeeding. -/
theorem C10_placeholder_hash_unmatchable (t : String) (cfg : Config) (nowMs : Nat)
    (tok : SignedToken) (ip : String) (st : St)
    (hver : verifyRefreshToken cfg nowMs tok ≠ none)
    (hplaceholder : ∀ s ∈ st.sessions, s.id = tok.payload.sessionId →
      s.refreshTokenHash = none) :
    ((Sha256.hashToken t).length = 64 ∧ Sha256.hashToken t ≠ "") ∧
    (refreshTokens cfg nowMs tok ip st).1 = .error .sessionCompromised := by
  refine ⟨⟨Sha256.hashToken_length t, Sha256.hashToken_ne_empty t⟩, ?_⟩
  unfold refreshTokens
  cases hv : verifyRefreshToken cfg nowMs tok with
  | none => exact absurd hv hver
  | some payload =>
    dsimp only
    have hp : payload = tok.payload := jwtVerify_some hv
    rw [List.find?_eq_none.mpr ?hnone]
    case hnone =>
      intro s hs
      simp only [decide_eq_true_eq, not_and]
      intro hid
      subst hp
      have := hplaceholder s hs hid
      simp [hashTokenM, this]

/-- Witness for C10 at a concrete placeholder-holding session. -/
theorem C10_placeholder_hash_unmatchable_witness :
    (verifyRefreshToken cfgEx 2000 tokC10 ≠ none ∧
     (∀ s ∈ stC10.sessions, s.id = tokC10.payload.sessionId → s.refreshTokenHash = none)) ∧
    (((Sha256.hashToken "any-token").length = 64 ∧ Sha256.hashToken "any-token" ≠ "") ∧
     (refreshTokens cfgEx 2000 tokC10 "ip" stC10).1 = .error .sessionCompromised) :=
  ⟨⟨by decide, by decide⟩,
   C10_placeholder_hash_unmatchable "any-token" cfgEx 2000 tokC10 "ip" stC10
     (by decide) (by decide)⟩

/-! ## Claim C1 -/

/-- C1, evaluated at the failing input: account `u1` holds sessions `c0` and
`c1`, both cached; replaying the superseded refresh token of `c0` fails with
`SessionCompromised` and deletes every durable session of the account — but
because `invalidateUserSessions` queries the table only after `deleteMany`
emptied it, both cache entries survive, and `authenticate` still accepts the
access token of session `c1` (and would accept one for `c0`): the account's
sessions are not all reported invalid afterwards, contrary to the claim. -/
theorem C1_reuse_detection_leaves_cache_alive :
    replayC1.1 = .error .sessionCompromised ∧
    replayC1.2.sessions = [] ∧
    redisExists replayC1.2.redis 4000 (sessionCacheKey "c1") = true ∧
    redisExists replayC1.2.redis 4000 (sessionCacheKey "c0") = true ∧
    (authenticate cfgEx 4000 toksC1b.accessToken replayC1.2).1 = .ok ⟨"u1", "c1"⟩ := by
  exact ⟨by decide, by decide, by decide, by decide, by decide⟩

/-! ## Claim C2 -/

/-- C2, evaluated at the failing input: after a Google authentication whose
payload carries `ann@example.com`, an Apple authentication with the same
email does not link into the existing account — the Apple path has no
email-linking branch, so it attempts to create a second account and dies on
the email unique constraint.  In the opposite order, the Google path does
link into the Apple-created account (no duplicate account results), but its
result still reports `isNewUser = true`, not `false` as the claim states. -/
theorem C2_apple_google_email_linking_broken :
    resC2googleFirst.isOk = true ∧
    isNewOf resC2googleFirst = true ∧
    resC2appleSecond = .error .uniqueConstraintViolation ∧
    resC2googleSecond.isOk = true ∧
    isNewOf resC2googleSecond = true ∧
    stC2googleSecond.users.length = 2 ∧
    stC2googleSecond.users.any
      (fun u => u.googleId = some "gsub" ∧ u.appleId = some "asub" ∧
        u.email = some "ann@example.com") = true := by
  exact ⟨by decide, by decide, by decide, by decide, by decide, by decide, by decide⟩

/-! ## Claim C7 -/

/-- C7 counterexample: with `max = 1` and `windowSeconds = 10` and attempts
at t = 0s, 5s and 11s, the fixed-window reference model built from the
claim's words (a per-key counter that resets `windowSeconds` after the first
attempt of the window) admits the attempt at t = 11s, because the window
that started at t = 0 has ended — but `createRateLimiter`'s handler rejects
it, because the (recorded, even though rejected) attempt at t = 5s still
lies inside the most recent 10 seconds: the code is a sliding window, not
the claimed fixed window.  The two models agree on the first two attempts. -/
theorem C7_fixed_window_counterexample :
    (rateLimitHandler 1 10 0 ⟨[]⟩).1 = (fixedWindowHandler 1 10 0 ⟨none, 0⟩).1 ∧
    (rateLimitHandler 1 10 5000 rlC7a).1 = (fixedWindowHandler 1 10 5000 fwC7a).1 ∧
    (fixedWindowHandler 1 10 11000 fwC7b).1 = false ∧
    (rateLimitHandler 1 10 11000 rlC7b).1 = true := by
  exact ⟨by decide, by decide, by decide, by decide⟩

/-! ## Claim C7, amended part -/

theorem filter_inWindow_absorb (w s t : Nat) (hst : s ≤ t) (l : List Nat) :
    (l.filter (inWindow w s)).filter (inWindow w t) = l.filter (inWindow w t) := by
  induction l with
  | nil => rfl
  | cons a l ih =>
    by_cases hs : inWindow w s a
    · by_cases ht : inWindow w t a <;> simp [List.filter_cons, hs, ht, ih]
    · have ht : inWindow w t a = false := by
        simp only [inWindow, decide_eq_true_eq, not_lt] at hs ⊢
        simp only [decide_eq_false_iff_not, not_lt]
        have : (s : Int) ≤ (t : Int) := by exact_mod_cast hst
        omega
      simp [List.filter_cons, hs, ht, ih]

theorem inWindow_self (w t : Nat) (hw : 0 < w) : inWindow w t t = true := by
  simp only [inWindow, decide_eq_true_eq]
  omega

theorem rlRun_entries (maxReq w : Nat) (hw : 0 < w) (times : List Nat) :
    ∀ (t : Nat), List.Sorted (· ≤ ·) (times ++ [t]) →
      (rlRun maxReq w (times ++ [t])).entries = (times ++ [t]).filter (inWindow w t) := by
  induction times using List.reverseRecOn with
  | nil =>
    intro t _
    simp [rlRun, rateLimitHandler, inWindow_self w t hw]
  | append_singleton l s ih =>
    intro t hsorted
    have hsort' : List.Sorted (· ≤ ·) (l ++ [s]) :=
      hsorted.sublist (List.sublist_append_left _ _)
    have hst : s ≤ t :=
      (List.pairwise_append.mp hsorted).2.2 s (by simp) t (by simp)
    have hentries := ih s hsort'
    have hfold : rlRun maxReq w ((l ++ [s]) ++ [t]) =
        (rateLimitHandler maxReq w t (rlRun maxReq w (l ++ [s]))).2 := by
      unfold rlRun
      rw [List.foldl_append]
      rfl
    rw [hfold]
    unfold rateLimitHandler
    dsimp only
    rw [hentries, filter_inWindow_absorb w s t hst, List.filter_append]
    by_cases hps : inWindow w t s <;>
      simp [List.filter_cons, hps, inWindow_self w t hw]

/-- C7, amended: the handler implements sliding-window counting.  Every
attempt is recorded (admitted or rejected); after any ≤-sorted attempt
history, the next attempt at time `t` is rejected exactly when at least
`maxReq` recorded attempts lie strictly within the `windowSeconds` preceding
`t`, and the new attempt is itself appended to the in-window record. -/
theorem C7_sliding_window (maxReq w : Nat) (hw : 0 < w) (times : List Nat) (t : Nat)
    (hsorted : List.Sorted (· ≤ ·) (times ++ [t])) :
    (rateLimitHandler maxReq w t (rlRun maxReq w times)).1 =
      decide ((times.filter (inWindow w t)).length ≥ maxReq) ∧
    (rateLimitHandler maxReq w t (rlRun maxReq w times)).2.entries =
      times.filter (inWindow w t) ++ [t] := by
  cases times using List.reverseRecOn with
  | nil =>
    constructor
    · rfl
    · rfl
  | append_singleton l s =>
    have hsort' : List.Sorted (· ≤ ·) (l ++ [s]) :=
      hsorted.sublist (List.sublist_append_left _ _)
    have hst : s ≤ t :=
      (List.pairwise_append.mp hsorted).2.2 s (by simp) t (by simp)
    have hentries := rlRun_entries maxReq w hw l s hsort'
    unfold rateLimitHandler
    dsimp only
    rw [hentries, filter_inWindow_absorb w s t hst]
    exact ⟨rfl, rfl⟩

/-- Witness for C7 at the concrete history 0s, 5s with the next attempt at
11s, `max = 1`, `windowSeconds = 10`. -/
theorem C7_sliding_window_witness :
    (0 < 10 ∧ List.Sorted (· ≤ ·) ([0, 5000] ++ [11000])) ∧
    ((rateLimitHandler 1 10 11000 (rlRun 1 10 [0, 5000])).1 =
      decide ((([0, 5000] : List Nat).filter (inWindow 10 11000)).length ≥ 1) ∧
     (rateLimitHandler 1 10 11000 (rlRun 1 10 [0, 5000])).2.entries =
      ([0, 5000] : List Nat).filter (inWindow 10 11000) ++ [11000]) :=
  ⟨⟨by decide, by decide⟩, C7_sliding_window 1 10 (by decide) [0, 5000] 11000 (by decide)⟩

/-! ## Claim C3, amended part: hash provenance across the operations -/

theorem userCreate_sessions {st : St} {mk : String → UserRec} {u : UserRec} {st2 : St}
    (h : userCreate st mk = .ok (u, st2)) : st2.sessions = st.sessions := by
  unfold userCreate at h
  dsimp only at h
  split at h
  · exact absurd h (by simp)
  · injection h with h1
    injection h1 with h2 h3
    subst h3
    rfl

theorem userUpdate_sessions {st : St} {uid : String} {f : UserRec → UserRec} {u : UserRec}
    {st2 : St} (h : userUpdate st uid f = .ok (u, st2)) : st2.sessions = st.sessions := by
  unfold userUpdate at h
  split at h
  · exact absurd h (by simp)
  · injection h with h1
    injection h1 with h2 h3
    subst h3
    rfl

theorem sendVerificationCode_sessions (nowMs : Nat) (phone code : String) (st : St) :
    (sendVerificationCode nowMs phone code st).2.sessions = st.sessions := by
  unfold sendVerificationCode
  dsimp only
  split <;> rfl

theorem authenticate_sessions (cfg : Config) (nowMs : Nat) (tok : SignedToken) (st : St) :
    (authenticate cfg nowMs tok st).2.sessions = st.sessions := by
  unfold authenticate
  cases hv : verifyAccessToken cfg nowMs tok with
  | none => rfl
  | some p =>
    dsimp only
    by_cases hex : redisExists st.redis nowMs (sessionCacheKey p.sessionId) = true
    · rw [if_pos hex]
    · rw [if_neg hex]
      cases hf : st.sessions.find? (fun s => s.id = p.sessionId) with
      | none => rfl
      | some s =>
        dsimp only
        by_cases hexp : s.expiresAt < nowMs
        · rw [if_pos hexp]
        · rw [if_neg hexp]
          by_cases httl : (s.expiresAt - nowMs) / 1000 > 0
          · rw [if_pos httl]
          · rw [if_neg httl]

theorem hashProv_createSession (cfg : Config) (nowMs : Nat) (uid : String)
    (dt : Option String) (ip : String) (st : St) :
    hashProv cfg nowMs st (createSession cfg nowMs uid dt ip st).2 := by
  intro r hr
  have hL : ∀ x ∈ (List.map (fun s => if s.id = freshId st then
      { s with refreshTokenHash :=
          hashTokenM (generateRefreshToken cfg nowMs ⟨uid, freshId st⟩) } else s)
      (st.sessions ++ [⟨freshId st, uid, none, dt, ip, nowMs + cfg.refreshExpMs, nowMs⟩])),
      x ∈ st.sessions ∨
        ∃ p, x.refreshTokenHash = some (jwtSign p cfg.refreshSecret cfg.refreshExpMs nowMs) := by
    intro x hx
    obtain ⟨v, hv, rfl⟩ := List.mem_map.mp hx
    by_cases hid : v.id = freshId st
    · right
      refine ⟨⟨uid, freshId st⟩, ?_⟩
      rw [if_pos hid]
      rfl
    · rw [if_neg hid]
      rcases List.mem_append.mp hv with h1 | h2
      · exact Or.inl h1
      · exfalso
        rw [List.mem_singleton.mp h2] at hid
        exact hid rfl
  unfold createSession userUpdate sessionUpdate at hr
  dsimp only at hr
  cases hfind : st.users.find? (fun v => v.id = uid) with
  | none =>
    rw [hfind] at hr
    exact hL r hr
  | some u =>
    rw [hfind] at hr
    dsimp only at hr
    split at hr
    · exact hL r (List.mem_filter.mp hr).1
    · exact hL r hr

theorem hashProv_finishAuth (cfg : Config) (nowMs : Nat) (user : UserRec) (b : Bool)
    (dt : Option String) (ip : String) (st : St) :
    hashProv cfg nowMs st (finishAuth cfg nowMs user b dt ip st).2 := by
  intro r hr
  rw [finishAuth_snd] at hr
  exact hashProv_createSession cfg nowMs user.id dt ip st r hr

theorem hashProv_of_sessions_eq {cfg : Config} {nowMs : Nat} {st1 st2 st3 : St}
    (heq : st1.sessions = st2.sessions) (h : hashProv cfg nowMs st1 st3) :
    hashProv cfg nowMs st2 st3 := by
  intro r hr
  rcases h r hr with h1 | h2
  · rw [heq] at h1
    exact Or.inl h1
  · exact Or.inr h2

theorem hashProv_finishAuth2 (cfg : Config) (nowMs : Nat) (user : UserRec) (b : Bool)
    (dt : Option String) (ip : String) {stb : St} (st : St)
    (heq : stb.sessions = st.sessions) :
    hashProv cfg nowMs st (finishAuth cfg nowMs user b dt ip stb).2 :=
  hashProv_of_sessions_eq heq (hashProv_finishAuth cfg nowMs user b dt ip stb)

theorem hashProv_refreshTokens (cfg : Config) (nowMs : Nat) (tok : SignedToken)
    (ip : String) (st : St) :
    hashProv cfg nowMs st (refreshTokens cfg nowMs tok ip st).2 := by
  intro r hr
  unfold refreshTokens at hr
  split at hr
  · exact Or.inl hr
  · dsimp only at hr
    split at hr
    · exact Or.inl (List.mem_filter.mp hr).1
    · next session _ =>
      obtain ⟨v, hv, rfl⟩ := List.mem_map.mp hr
      by_cases hid : v.id = session.id
      · right
        refine ⟨⟨session.userId, session.id⟩, ?_⟩
        rw [if_pos hid]
        rfl
      · rw [if_neg hid]
        exact Or.inl hv

theorem hashProv_verifyPhoneCode (cfg : Config) (nowMs : Nat) (input : VerifyCodeInput)
    (ip : String) (st : St) :
    hashProv cfg nowMs st (verifyPhoneCode cfg nowMs input ip st).2 := by
  intro r hr
  unfold verifyPhoneCode at hr
  dsimp only at hr
  split at hr
  · exact Or.inl hr
  · split at hr
    · exact Or.inl hr
    · split at hr
      · split at hr
        · exact Or.inl hr
        · next user st2 heq =>
          exact hashProv_finishAuth2 cfg nowMs user true input.deviceType ip st
            (by have h3 := userCreate_sessions heq; exact h3) r hr
      · split at hr
        · exact hashProv_finishAuth2 cfg nowMs _ false input.deviceType ip st
            (by exact rfl) r hr
        · split at hr
          · exact Or.inl hr
          · next user st2 heq =>
            exact hashProv_finishAuth2 cfg nowMs user false input.deviceType ip st
              (by have h3 := userUpdate_sessions heq; exact h3) r hr

theorem hashProv_google (cfg : Config) (nowMs : Nat) (input : GoogleAuthInput)
    (ip : String) (st : St) :
    hashProv cfg nowMs st (authenticateWithGoogle cfg nowMs input ip st).2 := by
  intro r hr
  unfold authenticateWithGoogle at hr
  split at hr
  · exact Or.inl hr
  · dsimp only at hr
    split at hr
    · exact hashProv_finishAuth cfg nowMs _ false input.deviceType ip st r hr
    · split at hr
      · next user st2 heq =>
        have hlink : st2.sessions = st.sessions := by
          split at heq
          · split at heq
            · split at heq
              · rename_i pair heq2
                injection heq with h1
                subst h1
                have h3 := userUpdate_sessions heq2
                exact h3
              · exact absurd heq (by simp)
            · exact absurd heq (by simp)
          · exact absurd heq (by simp)
        exact hashProv_finishAuth2 cfg nowMs user true input.deviceType ip st hlink r hr
      · split at hr
        · exact Or.inl hr
        · next user st2 heq =>
          exact hashProv_finishAuth2 cfg nowMs user true input.deviceType ip st
            (by have h3 := userCreate_sessions heq; exact h3) r hr

theorem hashProv_apple (cfg : Config) (nowMs : Nat) (input : AppleAuthInput)
    (ip : String) (st : St) :
    hashProv cfg nowMs st (authenticateWithApple cfg nowMs input ip st).2 := by
  intro r hr
  unfold authenticateWithApple at hr
  split at hr
  · exact Or.inl hr
  · split at hr
    · exact hashProv_finishAuth cfg nowMs _ false input.deviceType ip st r hr
    · split at hr
      · exact Or.inl hr
      · next user st2 heq =>
        exact hashProv_finishAuth2 cfg nowMs user true input.deviceType ip st
          (by have h3 := userCreate_sessions heq; exact h3) r hr

theorem rotBlocked_of_hashProv {cfg : Config} {nowMs : Nat} {tok : SignedToken}
    {st st2 : St} (hb : rotBlocked st tok) (hp : hashProv cfg nowMs st st2)
    (hiat : tok.iat < nowMs / 1000) : rotBlocked st2 tok := by
  intro r hr hid
  rcases hp r hr with h1 | ⟨p, hph⟩
  · exact hb r h1 hid
  · rw [hph]
    intro hcon
    have h2 := Option.some.inj hcon
    have h3 : tok.iat = nowMs / 1000 := by
      rw [← h2]
      rfl
    omega

theorem rotBlocked_step {cfg : Config} {tok : SignedToken} {st st2 : St} {nowMs : Nat}
    (hb : rotBlocked st tok) (hstep : Step cfg st nowMs st2)
    (hiat : tok.iat < nowMs / 1000) : rotBlocked st2 tok := by
  cases hstep with
  | send phone code =>
    intro r hr hid
    rw [sendVerificationCode_sessions] at hr
    exact hb r hr hid
  | verifyCode input ip =>
    exact rotBlocked_of_hashProv hb (hashProv_verifyPhoneCode cfg nowMs input ip st) hiat
  | google input ip =>
    exact rotBlocked_of_hashProv hb (hashProv_google cfg nowMs input ip st) hiat
  | apple input ip =>
    exact rotBlocked_of_hashProv hb (hashProv_apple cfg nowMs input ip st) hiat
  | create uid dt ip =>
    exact rotBlocked_of_hashProv hb (hashProv_createSession cfg nowMs uid dt ip st) hiat
  | rotate tok2 ip =>
    exact rotBlocked_of_hashProv hb (hashProv_refreshTokens cfg nowMs tok2 ip st) hiat
  | doLogout sid =>
    intro r hr hid
    exact hb r (List.mem_filter.mp hr).1 hid
  | checkAuth tok2 =>
    intro r hr hid
    rw [authenticate_sessions] at hr
    exact hb r hr hid

theorem rotBlocked_reach {cfg : Config} {tok : SignedToken} {st st2 : St}
    (hb : rotBlocked st tok) (hreach : ReachAfter cfg tok.iat st st2) :
    rotBlocked st2 tok := by
  induction hreach with
  | refl => exact hb
  | tail st1 sty nowMs hr hstep hlt ih => exact rotBlocked_step ih hstep hlt

theorem rotate_fails_of_rotBlocked (cfg : Config) (now2 : Nat) (tok : SignedToken)
    (ip2 : String) (st : St) (hb : rotBlocked st tok) :
    ((refreshTokens cfg now2 tok ip2 st).1).isOk = false := by
  unfold refreshTokens
  cases hv : verifyRefreshToken cfg now2 tok with
  | none => rfl
  | some payload =>
    dsimp only
    have hp : payload = tok.payload := jwtVerify_some hv
    rw [List.find?_eq_none.mpr ?hno]
    case hno =>
      intro s hs
      simp only [decide_eq_true_eq, not_and]
      intro hid hhash
      exact absurd hhash (hb s hs (by rw [hid, hp]))
    rfl

/-- C3, amended: rotating an Active session with the refresh token whose
hash is currently stored succeeds; when the rotation happens at a clock
second strictly after the token's issue second, the returned refresh token
differs from the presented one, the post-state blocks the presented token,
and across any further operations executed at clock seconds later than the
token's issue second, the presented token can never again make a rotation
succeed for any session.  (Within the issuance second the identical token
is re-issued — see the counterexample.) -/
theorem C3_rotation_invalidates_previous_token (cfg : Config) (nowMs : Nat)
    (tok : SignedToken) (ip : String) (st : St) (s : SessionRec)
    (hs : s ∈ st.sessions) (hsid : s.id = tok.payload.sessionId)
    (hhash : s.refreshTokenHash = some tok)
    (hexp : nowMs < s.expiresAt)
    (hsec : tok.secret = cfg.refreshSecret)
    (htexp : nowMs / 1000 < tok.exp)
    (hiat : tok.iat < nowMs / 1000) :
    (∃ pair, (refreshTokens cfg nowMs tok ip st).1 = .ok pair ∧ pair.refreshToken ≠ tok) ∧
    rotBlocked (refreshTokens cfg nowMs tok ip st).2 tok ∧
    (∀ st2, ReachAfter cfg tok.iat (refreshTokens cfg nowMs tok ip st).2 st2 →
      ∀ (now2 : Nat) (ip2 : String),
        ((refreshTokens cfg now2 tok ip2 st2).1).isOk = false) := by
  have hver : verifyRefreshToken cfg nowMs tok = some tok.payload := by
    unfold verifyRefreshToken jwtVerify
    rw [if_pos ⟨hsec, htexp⟩]
  cases hfind : st.sessions.find? (fun r =>
      r.id = tok.payload.sessionId ∧ r.refreshTokenHash = hashTokenM tok ∧
        nowMs < r.expiresAt) with
  | none =>
    exfalso
    have hn := List.find?_eq_none.mp hfind s hs
    simp only [decide_eq_true_eq] at hn
    exact hn ⟨hsid, by rw [hhash]; rfl, hexp⟩
  | some s0 =>
    have hpred := List.find?_some hfind
    simp only [decide_eq_true_eq] at hpred
    obtain ⟨hs0id, hs0hash, hs0exp⟩ := hpred
    have hfst : (refreshTokens cfg nowMs tok ip st).1 =
        .ok ⟨generateAccessToken cfg nowMs ⟨s0.userId, s0.id⟩,
             generateRefreshToken cfg nowMs ⟨s0.userId, s0.id⟩, 900⟩ := by
      unfold refreshTokens
      rw [hver]
      dsimp only
      rw [hfind]
    have hpost : (refreshTokens cfg nowMs tok ip st).2.sessions =
        st.sessions.map (fun r => if r.id = s0.id then
          { r with
              refreshTokenHash :=
                hashTokenM (generateRefreshToken cfg nowMs ⟨s0.userId, s0.id⟩),
              ipAddress := ip,
              expiresAt := nowMs + cfg.refreshExpMs }
          else r) := by
      unfold refreshTokens
      rw [hver]
      dsimp only
      rw [hfind]
      rfl
    have hblocked : rotBlocked (refreshTokens cfg nowMs tok ip st).2 tok := by
      intro r hr hid
      rw [hpost] at hr
      obtain ⟨v, hv, rfl⟩ := List.mem_map.mp hr
      by_cases hvid : v.id = s0.id
      · rw [if_pos hvid]
        intro hcon
        have h2 : generateRefreshToken cfg nowMs ⟨s0.userId, s0.id⟩ = tok :=
          Option.some.inj hcon
        have h3 : tok.iat = nowMs / 1000 := by
          rw [← h2]
          rfl
        omega
      · rw [if_neg hvid]
        rw [if_neg hvid] at hid
        exact absurd (hid.trans hs0id.symm) hvid
    refine ⟨⟨⟨generateAccessToken cfg nowMs ⟨s0.userId, s0.id⟩,
              generateRefreshToken cfg nowMs ⟨s0.userId, s0.id⟩, 900⟩, hfst, ?_⟩,
           hblocked, ?_⟩
    · intro hcon
      have h3 : tok.iat = nowMs / 1000 := by
        rw [← hcon]
        rfl
      omega
    · intro st2 hreach now2 ip2
      exact rotate_fails_of_rotBlocked cfg now2 tok ip2 st2
        (rotBlocked_reach hblocked hreach)

/-- Witness for C3: rotate session `c0` at t = 5000ms, four seconds after
its refresh token was issued. -/
theorem C3_rotation_invalidates_previous_token_witness :
    (sC3w ∈ stC3.sessions ∧ sC3w.id = tokC3.payload.sessionId ∧
     sC3w.refreshTokenHash = some tokC3 ∧ (5000 : Nat) < sC3w.expiresAt ∧
     tokC3.secret = cfgEx.refreshSecret ∧ (5000 : Nat) / 1000 < tokC3.exp ∧
     tokC3.iat < (5000 : Nat) / 1000) ∧
    ((∃ pair, (refreshTokens cfgEx 5000 tokC3 "ip2" stC3).1 = .ok pair ∧
        pair.refreshToken ≠ tokC3) ∧
     rotBlocked (refreshTokens cfgEx 5000 tokC3 "ip2" stC3).2 tokC3 ∧
     (∀ st2, ReachAfter cfgEx tokC3.iat (refreshTokens cfgEx 5000 tokC3 "ip2" stC3).2 st2 →
       ∀ (now2 : Nat) (ip2 : String),
         ((refreshTokens cfgEx now2 tokC3 ip2 st2).1).isOk = false)) :=
  ⟨⟨by decide, by decide, by decide, by decide, by decide, by decide, by decide⟩,
   C3_rotation_invalidates_previous_token cfgEx 5000 tokC3 "ip2" stC3 sC3w
     (by decide) (by decide) (by decide) (by decide) (by decide) (by decide) (by decide)⟩

/-! ## Claim C3, counterexample part -/

/-- C3 counterexample: `jwt.sign` is deterministic in the claims and the
secret, and `iat` has whole-second granularity — so rotating session `c0` at
t = 1500ms, within the same second in which its refresh token was issued
(t = 1000ms), re-issues the *identical* refresh token: the returned refresh
token equals the presented one, and presenting the same token a second time
(at t = 1800ms) rotates successfully again instead of being permanently
unusable. -/
theorem C3_same_second_rotation_counterexample :
    (refreshTokens cfgEx 1500 tokC3 "ip2" stC3).1 =
      .ok ⟨generateAccessToken cfgEx 1500 ⟨"u1", "c0"⟩, tokC3, 900⟩ ∧
    ((refreshTokens cfgEx 1800 tokC3 "ip3"
        (refreshTokens cfgEx 1500 tokC3 "ip2" stC3).2).1).isOk = true := by
  exact ⟨by decide, by decide⟩

end VybeServer
